import Mathlib

/-!
# Verification of the ic-cose namespace/setting store and COSE_Encrypt0 codec

A shallow embedding of the core of `ic_cose_canister/src/store.rs` (namespace and
setting records, permission predicates, the setting version/archival lifecycle)
and of `ic_cose_types/src/cose/encrypt0.rs` (the COSE_Encrypt0 envelope).

Modelling conventions:
* Rust `u8`/`u32`/`u64`/`usize` values are `Nat`; saturating arithmetic is made
  explicit (`satAdd32`, `satAdd64`).  `i8` status fields are `Int`.
* `candid::Principal` is its raw byte list.  Its `Ord` instance compares by
  length first and then lexicographically by bytes, which the repository's own
  test asserts (`test_list_setting_keys`: `anonymous > management_canister`,
  `[1,1,1,1] < [1,1,1,1,1]`).
* The stable `BTreeMap`s are association lists with `alookup`/`ainsert`/
  `aremove`; the one range scan the claims touch (`delete_namespace`) is
  modelled through the key order `spkCmp` exactly as the map's sorted order.
* Stateful functions take and return an explicit `StoreState`; every early
  `Err` return carries the state exactly as mutated so far, so atomicity is a
  provable property of the translation, not a typing artifact.
* The external CBOR parsers consulted only for success/failure
  (`try_decode_encrypt0` / `try_decode_payload` of `ciborium`/`coset`) are a
  `Codec` parameter; interpolated identifiers in error strings are elided.
-/

deriving instance DecidableEq for Except

namespace ICCose

/-- A `candid::Principal`: an opaque caller identity, modelled as raw bytes. -/
abbrev Principal := List Nat

/-- `Principal::anonymous()` is the single byte `0x04`. -/
def anonymousPrincipal : Principal := [4]

/-- `Principal::management_canister()` is the empty byte string. -/
def managementPrincipal : Principal := []

/-- `u32::MAX`. -/
def u32Max : Nat := 4294967295

/-- `u64::MAX`. -/
def u64Max : Nat := 18446744073709551615

/-- `u32` saturating addition (`saturating_add`). -/
def satAdd32 (a b : Nat) : Nat := min (a + b) u32Max

/-- `u64` saturating addition (`saturating_add`). -/
def satAdd64 (a b : Nat) : Nat := min (a + b) u64Max

/-- Lexicographic comparison on byte lists (`Ord` of `Vec<u8>` / `ByteBuf`). -/
def listNatCmp : List Nat → List Nat → Ordering
  | [], [] => .eq
  | [], _ :: _ => .lt
  | _ :: _, [] => .gt
  | a :: as_, b :: bs =>
    if a < b then .lt else if b < a then .gt else listNatCmp as_ bs

/-- `candid::Principal` comparison: length first, then bytes lexicographically. -/
def principalCmp (a b : Principal) : Ordering :=
  if a.length < b.length then .lt
  else if b.length < a.length then .gt
  else listNatCmp a b

/-- Sequential composition of comparisons (tuple-lexicographic `Ord`). -/
def ordThen : Ordering → Ordering → Ordering
  | .eq, o => o
  | o, _ => o

/-- `Namespace` record of `store.rs` (stable-store representation). -/
structure Namespace where
  desc : String
  created_at : Nat
  updated_at : Nat
  max_payload_size : Nat
  payload_bytes_total : Nat
  status : Int
  visibility : Nat
  managers : List Principal
  auditors : List Principal
  users : List Principal
  gas_balance : Nat
  fixed_id_names : List (String × List Principal)
  session_expires_in_ms : Nat
deriving DecidableEq

/-- `SettingPathKey(namespace name, scope 0 or 1, subject, setting key, version)`. -/
structure SettingPathKey where
  ns : String
  scope : Nat
  subject : Principal
  key : List Nat
  version : Nat
deriving DecidableEq

/-- `SettingPathKey::v0`: the same path at version 0 (the live record's key). -/
def SettingPathKey.v0 (k : SettingPathKey) : SettingPathKey := { k with version := 0 }

/-- The derived tuple-lexicographic order on `SettingPathKey`. -/
def spkCmp (a b : SettingPathKey) : Ordering :=
  ordThen (compare a.ns b.ns)
    (ordThen (compare a.scope b.scope)
      (ordThen (principalCmp a.subject b.subject)
        (ordThen (listNatCmp a.key b.key) (compare a.version b.version))))

/-- `a ≤ b` in the stable map's key order. -/
def spkLeB (a b : SettingPathKey) : Bool := spkCmp a b ≠ .gt

/-- `Setting` record of `store.rs`. -/
structure Setting where
  desc : String
  created_at : Nat
  updated_at : Nat
  status : Int
  version : Nat
  readers : List Principal
  tags : List (String × String)
  payload : Option (List Nat)
  dek : Option (List Nat)
deriving DecidableEq

/-- `Setting::default()`. -/
def Setting.default : Setting :=
  { desc := "", created_at := 0, updated_at := 0, status := 0, version := 0,
    readers := [], tags := [], payload := none, dek := none }

/-- `SettingArchived` record of `store.rs`. -/
structure SettingArchived where
  archived_at : Nat
  deprecated : Bool
  payload : Option (List Nat)
  dek : Option (List Nat)
deriving DecidableEq

/-- `SettingInfo` of `ic_cose_types/src/types/setting.rs`. -/
structure SettingInfo where
  key : List Nat
  subject : Principal
  desc : String
  created_at : Nat
  updated_at : Nat
  status : Int
  version : Nat
  readers : List Principal
  tags : List (String × String)
  dek : Option (List Nat)
  payload : Option (List Nat)
deriving DecidableEq

/-- `SettingArchivedPayload` returned by `get_setting_archived_payload`. -/
structure SettingArchivedPayload where
  version : Nat
  archived_at : Nat
  deprecated : Bool
  payload : Option (List Nat)
  dek : Option (List Nat)
deriving DecidableEq

/-- `CreateSettingInput` of `ic_cose_types`. -/
structure CreateSettingInput where
  payload : Option (List Nat)
  desc : Option String
  status : Option Int
  tags : Option (List (String × String))
  dek : Option (List Nat)
deriving DecidableEq

/-- `CreateSettingOutput` / `UpdateSettingOutput` of `ic_cose_types`. -/
structure UpdateSettingOutput where
  created_at : Nat
  updated_at : Nat
  version : Nat
deriving DecidableEq

/-- `UpdateSettingPayloadInput` of `ic_cose_types`. -/
structure UpdateSettingPayloadInput where
  payload : Option (List Nat)
  status : Option Int
  deprecate_current : Option Bool
  dek : Option (List Nat)
deriving DecidableEq

/-- `UpdateSettingInfoInput` of `ic_cose_types`. -/
structure UpdateSettingInfoInput where
  desc : Option String
  status : Option Int
  tags : Option (List (String × String))
deriving DecidableEq

/-- `UpdateNamespaceInput` of `ic_cose_types`. -/
structure UpdateNamespaceInput where
  name : String
  desc : Option String
  max_payload_size : Option Nat
  status : Option Int
  visibility : Option Nat
  session_expires_in_ms : Option Nat
deriving DecidableEq

/-- The three stable tables of `store.rs`: `NAMESPACES_STORE`, `SETTINGS_STORE`
(living records, keyed at version 0) and `PAYLOADS_STORE` (archived versions). -/
structure StoreState where
  namespaces : List (String × Namespace)
  settings : List (SettingPathKey × Setting)
  payloads : List (SettingPathKey × SettingArchived)
deriving DecidableEq

/-- The external CBOR/COSE parsers of `ciborium`/`coset`, which the store
operations consult only for success or failure: `try_decode_encrypt0` and
`try_decode_payload`. -/
structure Codec where
  decodeEncrypt0Ok : List Nat → Bool
  decodePayloadOk : List Nat → Bool

/-- Map lookup (`BTreeMap::get`). -/
def alookup {α β : Type} [DecidableEq α] : List (α × β) → α → Option β
  | [], _ => none
  | (a, b) :: t, k => if a = k then some b else alookup t k

/-- Map insert/replace (`BTreeMap::insert`). -/
def ainsert {α β : Type} [DecidableEq α] : List (α × β) → α → β → List (α × β)
  | [], k, v => [(k, v)]
  | (a, b) :: t, k, v => if a = k then (k, v) :: t else (a, b) :: ainsert t k v

/-- Map removal (`BTreeMap::remove`). -/
def aremove {α β : Type} [DecidableEq α] : List (α × β) → α → List (α × β)
  | [], _ => []
  | (a, b) :: t, k => if a = k then aremove t k else (a, b) :: aremove t k

/-- `Namespace::can_write_namespace`: status below read-only and a manager. -/
def Namespace.can_write_namespace (ns : Namespace) (caller : Principal) : Bool :=
  decide (ns.status < 1) && decide (caller ∈ ns.managers)

/-- `Namespace::can_read_namespace`. -/
def Namespace.can_read_namespace (ns : Namespace) (caller : Principal) : Bool :=
  if ns.visibility = 1 then true
  else if ns.status < 0 then
    decide (caller ∈ ns.managers) || decide (caller ∈ ns.auditors)
  else
    decide (caller ∈ ns.managers) || decide (caller ∈ ns.auditors)
      || decide (caller ∈ ns.users)

/-- `Namespace::can_write_setting`: scope 0 only for managers; scope 1 only for
the subject when it is a namespace user; nothing when status is non-zero. -/
def Namespace.can_write_setting (ns : Namespace) (caller : Principal)
    (spk : SettingPathKey) : Bool :=
  if ns.status ≠ 0 then false
  else if spk.scope = 0 then decide (caller ∈ ns.managers)
  else decide (caller ∈ ns.users) && decide (caller = spk.subject)

/-- `Namespace::partial_can_read_setting` (the name is shortened here):
`some true` grants full access, `some false` denies, `none` defers to the
setting's `readers` set. -/
def Namespace.read_setting_perm (ns : Namespace) (caller : Principal)
    (spk : SettingPathKey) : Option Bool :=
  if ns.visibility = 1 then some true
  else if ns.status < 0 then
    some (decide (caller ∈ ns.managers) || decide (caller ∈ ns.auditors))
  else if caller ∈ ns.managers ∨ caller ∈ ns.auditors ∨ caller = spk.subject then
    some true
  else none

/-- `ns::has_kek_permission` of `store.rs`: archived namespaces deny non-
managers; subjects, auditors and (scope-0) managers pass; otherwise the live
setting's `readers` set decides; a missing namespace denies. -/
def has_kek_permission (caller : Principal) (spk : SettingPathKey)
    (st : StoreState) : Bool :=
  match alookup st.namespaces spk.ns with
  | none => false
  | some ns =>
    if ns.status < 0 ∧ caller ∉ ns.managers then false
    else if caller = spk.subject ∨ caller ∈ ns.auditors
        ∨ (spk.scope = 0 ∧ caller ∈ ns.managers) then true
    else
      match alookup st.settings spk.v0 with
      | none => false
      | some s => decide (caller ∈ s.readers)

/-- `ns::try_get_setting` of `store.rs`: read-permission filter plus the
`spk.4 <= s.version` version filter over the live record. -/
def try_get_setting (caller : Principal) (spk : SettingPathKey)
    (st : StoreState) : Option Setting :=
  match alookup st.namespaces spk.ns with
  | none => none
  | some ns =>
    let can := ns.read_setting_perm caller spk
    if can = some false then none
    else
      match alookup st.settings spk.v0 with
      | none => none
      | some s =>
        if spk.version ≤ s.version ∧ (can = some true ∨ caller ∈ s.readers)
        then some s else none

/-- `Setting::into_info`. -/
def Setting.into_info (s : Setting) (subject : Principal) (key : List Nat)
    (with_payload : Bool) : SettingInfo :=
  { key := key, subject := subject, desc := s.desc, created_at := s.created_at,
    updated_at := s.updated_at, status := s.status, version := s.version,
    readers := s.readers, tags := s.tags,
    dek := if with_payload then s.dek else none,
    payload := if with_payload then s.payload else none }

/-- `ns::get_setting` of `store.rs`: a requested version other than 0 must
equal the live version exactly; the result is always the live record. -/
def get_setting (caller : Principal) (spk : SettingPathKey)
    (st : StoreState) : Except String SettingInfo :=
  match try_get_setting caller spk st with
  | none => .error "setting not found or no permission"
  | some s =>
    if spk.version ≠ 0 ∧ spk.version ≠ s.version then .error "version mismatch"
    else .ok (s.into_info spk.subject spk.key true)

/-- `ns::get_setting_archived_payload` of `store.rs`. -/
def get_setting_archived_payload (caller : Principal) (spk : SettingPathKey)
    (st : StoreState) : Except String SettingArchivedPayload :=
  match try_get_setting caller spk st with
  | none => .error "setting not found or no permission"
  | some s =>
    if spk.version = 0 ∨ spk.version ≥ s.version then .error "version mismatch"
    else
      match alookup st.payloads spk with
      | none => .error "setting payload not found"
      | some p =>
        .ok { version := spk.version, archived_at := p.archived_at,
              deprecated := p.deprecated, payload := p.payload, dek := p.dek }

/-- The start key of `delete_namespace`'s emptiness scan:
`SettingPathKey(namespace, 0, Principal::anonymous(), ByteBuf::new(), 0)`. -/
def deleteScanStart (name : String) : SettingPathKey :=
  { ns := name, scope := 0, subject := anonymousPrincipal, key := [], version := 0 }

/-- `ns::delete_namespace` of `store.rs`.  The emptiness test is the unbounded
range scan `keys_range(RangeFrom start).next().is_some()`: it succeeds exactly
when no stored setting key (of ANY namespace) is `≥ start` in the map order. -/
def delete_namespace (caller : Principal) (name : String)
    (st : StoreState) : Except String Unit × StoreState :=
  match alookup st.namespaces name with
  | none => (.error ("namespace " ++ name ++ " not found"), st)
  | some ns =>
    if ¬ ns.can_write_namespace caller then (.error "no permission", st)
    else if st.settings.any (fun kv => spkLeB (deleteScanStart name) kv.1) then
      (.error ("namespace " ++ name ++ " is not empty"), st)
    else (.ok (), { st with namespaces := aremove st.namespaces name })

/-- Size of an optional byte field. -/
def optLen (o : Option (List Nat)) : Nat :=
  match o with
  | some b => b.length
  | none => 0

/-- `ns.payload_bytes_total = ns.payload_bytes_total.saturating_add(size)`. -/
def nsAddBytes (ns : Namespace) (size : Nat) : Namespace :=
  { ns with payload_bytes_total := satAdd64 ns.payload_bytes_total size }

/-- The fresh `Setting` record `create_setting` inserts (version 1,
`..Default::default()` for the rest). -/
def createdSetting (input : CreateSettingInput) (now : Nat) : Setting :=
  { desc := input.desc.getD "", created_at := now, updated_at := now,
    status := input.status.getD 0, tags := input.tags.getD [],
    payload := input.payload, dek := input.dek, version := 1, readers := [] }

/-- Commit step of `ns::create_setting`: the `contains_key` check, the insert
of the fresh version-1 record, and the namespace byte-total accumulation. -/
def create_setting_commit (ns : Namespace) (spk : SettingPathKey)
    (input : CreateSettingInput) (now : Nat) (size : Nat)
    (st : StoreState) : Except String UpdateSettingOutput × StoreState :=
  if (alookup st.settings spk).isSome then
    (.error "setting already exists", st)
  else
    let st1 : StoreState :=
      { st with settings := ainsert st.settings spk (createdSetting input now) }
    (.ok { created_at := now, updated_at := now, version := 1 },
     { st1 with namespaces := ainsert st1.namespaces spk.ns (nsAddBytes ns size) })

/-- `ns::create_setting` of `store.rs` (validation order preserved: write
permission, version-0 check, payload size, COSE/CBOR well-formedness of `dek`
and `payload`, existence, insert, byte-total accumulation). -/
def create_setting (c : Codec) (caller : Principal) (spk : SettingPathKey)
    (input : CreateSettingInput) (now : Nat)
    (st : StoreState) : Except String UpdateSettingOutput × StoreState :=
  match alookup st.namespaces spk.ns with
  | none => (.error ("namespace " ++ spk.ns ++ " not found"), st)
  | some ns =>
    if ¬ ns.can_write_setting caller spk then (.error "no permission", st)
    else if spk.version ≠ 0 then (.error "version mismatch", st)
    else if (match input.payload with
             | some p => decide (p.length > ns.max_payload_size)
             | none => false) then
      (.error "payload size exceeds the limit", st)
    else
      match input.dek with
      | some dek =>
        if ¬ c.decodeEncrypt0Ok dek then (.error "invalid COSE encrypt0 dek", st)
        else
          match input.payload with
          | some p =>
            if p.length > ns.max_payload_size then
              (.error "payload size exceeds the limit", st)
            else if ¬ c.decodeEncrypt0Ok p then
              (.error "invalid COSE encrypt0 payload", st)
            else create_setting_commit ns spk input now (p.length + dek.length) st
          | none => create_setting_commit ns spk input now dek.length st
      | none =>
        match input.payload with
        | some p =>
          if ¬ c.decodePayloadOk p then (.error "decode CBOR payload failed", st)
          else create_setting_commit ns spk input now p.length st
        | none => create_setting_commit ns spk input now 0 st

/-- `ns::with_setting_mut` of `store.rs`: write permission, exact version
match, not read-only; then the caller's mutation runs and the record is
re-inserted at the version-0 key. -/
def with_setting_mut (caller : Principal) (spk : SettingPathKey)
    (f : Setting → Setting)
    (st : StoreState) : Except String Setting × StoreState :=
  match alookup st.namespaces spk.ns with
  | none => (.error ("namespace " ++ spk.ns ++ " not found"), st)
  | some ns =>
    if ¬ ns.can_write_setting caller spk then (.error "no permission", st)
    else
      match alookup st.settings spk.v0 with
      | none => (.error "setting not found", st)
      | some s =>
        if s.version ≠ spk.version then (.error "version mismatch", st)
        else if s.status ≥ 1 then
          (.error "readonly setting can not be updated", st)
        else
          let s1 := f s
          (.ok s1, { st with settings := ainsert st.settings spk.v0 s1 })

/-- The record mutation `update_setting_info` hands to `with_setting_mut`. -/
def infoMut (input : UpdateSettingInfoInput) (now : Nat) (s : Setting) : Setting :=
  { s with status := input.status.getD s.status,
           desc := input.desc.getD s.desc,
           tags := input.tags.getD s.tags,
           updated_at := now }

/-- The record mutation of `setting_add_readers` (`BTreeSet::append`). -/
def addReadersMut (input : List Principal) (now : Nat) (s : Setting) : Setting :=
  { s with readers := s.readers ++ input.filter (fun p => p ∉ s.readers),
           updated_at := now }

/-- The record mutation of `setting_remove_readers` (`BTreeSet::retain`). -/
def removeReadersMut (input : List Principal) (now : Nat) (s : Setting) :
    Setting :=
  { s with readers := s.readers.filter (fun p => p ∉ input),
           updated_at := now }

/-- `ns::update_setting_info` of `store.rs`. -/
def update_setting_info (caller : Principal) (spk : SettingPathKey)
    (input : UpdateSettingInfoInput) (now : Nat)
    (st : StoreState) : Except String UpdateSettingOutput × StoreState :=
  match with_setting_mut caller spk (infoMut input now) st with
  | (.ok s1, st1) =>
    (.ok { created_at := s1.created_at, updated_at := s1.updated_at,
           version := s1.version }, st1)
  | (.error e, st1) => (.error e, st1)

/-- `setting_add_readers` of `api_setting.rs` (the readers-set union). -/
def setting_add_readers (caller : Principal) (spk : SettingPathKey)
    (input : List Principal) (now : Nat)
    (st : StoreState) : Except String Unit × StoreState :=
  match with_setting_mut caller spk (addReadersMut input now) st with
  | (.ok _, st1) => (.ok (), st1)
  | (.error e, st1) => (.error e, st1)

/-- `setting_remove_readers` of `api_setting.rs` (the readers-set difference). -/
def setting_remove_readers (caller : Principal) (spk : SettingPathKey)
    (input : List Principal) (now : Nat)
    (st : StoreState) : Except String Unit × StoreState :=
  match with_setting_mut caller spk (removeReadersMut input now) st with
  | (.ok _, st1) => (.ok (), st1)
  | (.error e, st1) => (.error e, st1)

/-- `ns::delete_setting` of `store.rs`: removes the live record and the
archived payloads of versions `1 .. spk.version - 1`; the namespace record
(and in particular `payload_bytes_total`) is not touched. -/
def delete_setting (caller : Principal) (spk : SettingPathKey)
    (st : StoreState) : Except String Unit × StoreState :=
  match alookup st.namespaces spk.ns with
  | none => (.error ("namespace " ++ spk.ns ++ " not found"), st)
  | some ns =>
    if ¬ ns.can_write_setting caller spk then (.error "no permission", st)
    else
      match alookup st.settings spk.v0 with
      | none => (.error "setting not found", st)
      | some s =>
        if s.version ≠ spk.version then (.error "version mismatch", st)
        else if s.status ≥ 1 then
          (.error "readonly setting can not be deleted", st)
        else
          let st1 : StoreState :=
            { st with settings := aremove st.settings spk.v0 }
          let prunedArchives : List (SettingPathKey × SettingArchived) :=
            (List.range' 1 (spk.version - 1)).foldl
              (fun pl v => aremove pl { spk with version := v }) st1.payloads
          let st2 : StoreState :=
            if spk.version > 1 then { st1 with payloads := prunedArchives }
            else st1
          (.ok (), st2)

/-- The overwritten `Setting` record `update_setting_payload` re-inserts:
version bumped with `saturating_add(1)`, optional status/payload/dek applied. -/
def updatedSetting (s : Setting) (input : UpdateSettingPayloadInput)
    (now : Nat) : Setting :=
  let newPayload : Option (List Nat) :=
    match input.payload with
    | some p => some p
    | none => s.payload
  let newDek : Option (List Nat) :=
    match input.dek with
    | some d => some d
    | none => s.dek
  { s with version := satAdd32 s.version 1, updated_at := now,
           status := input.status.getD s.status,
           payload := newPayload, dek := newDek }

/-- The archival record `update_setting_payload` stores under the pre-update
version key when the live payload is present. -/
def archivedOf (s : Setting) (input : UpdateSettingPayloadInput) (now : Nat)
    (pl : List Nat) : SettingArchived :=
  { archived_at := now, deprecated := input.deprecate_current.getD false,
    payload := some pl, dek := s.dek }

/-- The archival table after `update_setting_payload` commits: the live
payload (when present) is stored under the pre-update version key. -/
def archivedAfter (s : Setting) (input : UpdateSettingPayloadInput) (now : Nat)
    (spk : SettingPathKey) (pl0 : List (SettingPathKey × SettingArchived)) :
    List (SettingPathKey × SettingArchived) :=
  match s.payload with
  | some pl => ainsert pl0 spk (archivedOf s input now pl)
  | none => pl0

/-- Commit step of `ns::update_setting_payload`: archive the current payload
(if any) under the current version key, bump the version (saturating), apply
the optional field updates, re-insert, accumulate the byte total. -/
def update_setting_commit (ns : Namespace) (s : Setting) (spk : SettingPathKey)
    (input : UpdateSettingPayloadInput) (now : Nat) (size : Nat)
    (st : StoreState) : Except String UpdateSettingOutput × StoreState :=
  let st1 : StoreState :=
    { st with payloads := archivedAfter s input now spk st.payloads }
  let s1 : Setting := updatedSetting s input now
  let st2 : StoreState := { st1 with settings := ainsert st1.settings spk.v0 s1 }
  (.ok { created_at := s1.created_at, updated_at := s1.updated_at,
         version := s1.version },
   { st2 with namespaces := ainsert st2.namespaces spk.ns (nsAddBytes ns size) })

/-- `ns::update_setting_payload` of `store.rs` (check order preserved: write
permission, payload size (dek excluded), existence, exact version match, not
read-only, COSE/CBOR well-formedness, then the commit). -/
def update_setting_payload (c : Codec) (caller : Principal)
    (spk : SettingPathKey) (input : UpdateSettingPayloadInput) (now : Nat)
    (st : StoreState) : Except String UpdateSettingOutput × StoreState :=
  match alookup st.namespaces spk.ns with
  | none => (.error ("namespace " ++ spk.ns ++ " not found"), st)
  | some ns =>
    if ¬ ns.can_write_setting caller spk then (.error "no permission", st)
    else if optLen input.payload > ns.max_payload_size then
      (.error "payload size exceeds the limit", st)
    else
      let size := optLen input.payload + optLen input.dek
      match alookup st.settings spk.v0 with
      | none => (.error "setting not found", st)
      | some s =>
        if s.version ≠ spk.version then (.error "version mismatch", st)
        else if s.status ≥ 1 then
          (.error "readonly setting can not be updated", st)
        else if s.dek.isSome ∨ input.dek.isSome then
          match input.payload with
          | some p =>
            if ¬ c.decodeEncrypt0Ok p then
              (.error "invalid COSE encrypt0 payload", st)
            else update_setting_commit ns s spk input now size st
          | none => update_setting_commit ns s spk input now size st
        else
          match input.payload with
          | some p =>
            if ¬ c.decodePayloadOk p then
              (.error "decode CBOR payload failed", st)
            else update_setting_commit ns s spk input now size st
          | none => update_setting_commit ns s spk input now size st

/-- The namespace record after `update_namespace_info`'s optional-field
application (`payload_bytes_total` untouched). -/
def nsInfoUpdated (ns : Namespace) (input : UpdateNamespaceInput) (now : Nat) :
    Namespace :=
  { ns with desc := input.desc.getD ns.desc,
            max_payload_size := input.max_payload_size.getD ns.max_payload_size,
            status := input.status.getD ns.status,
            visibility := input.visibility.getD ns.visibility,
            session_expires_in_ms :=
              input.session_expires_in_ms.getD ns.session_expires_in_ms,
            updated_at := now }

/-- `ns::update_namespace_info` of `store.rs` (never touches
`payload_bytes_total` or the settings tables). -/
def update_namespace_info (caller : Principal) (input : UpdateNamespaceInput)
    (now : Nat) (st : StoreState) : Except String Unit × StoreState :=
  match alookup st.namespaces input.name with
  | none => (.error ("namespace " ++ input.name ++ " not found"), st)
  | some ns =>
    if ¬ ns.can_write_namespace caller then (.error "no permission", st)
    else
      let ns2 := ainsert st.namespaces input.name (nsInfoUpdated ns input now)
      (.ok (), { st with namespaces := ns2 })

/-!
## COSE_Encrypt0 (`ic_cose_types/src/cose/encrypt0.rs`)

The byte-level CBOR codec (`coset`/`ciborium`) and the AES-256-GCM cipher
(`aes_gcm` crate) are external collaborators, declared out of scope by the
spec; serialization is abstracted to the parsed `CoseEncrypt0` structure
(`to_tagged_vec` / `skip_prefix` + `from_slice` are mutually inverse on it),
and the AEAD is idealized: the keystream is the identity and the 16-byte tag
is a perfect MAC over (key, nonce, Enc_structure AAD, data).  Everything else
(header layout, IV extraction via `first_chunk::<12>`, the Enc_structure AAD
binding) follows the repository code.
-/

/-- The Enc_structure that `coset` feeds the AEAD as its AAD: context
`"Encrypt0"`, the serialized protected header, and the external AAD. -/
structure EncStructure where
  protectedAlg : Option Int
  external : List Nat
deriving DecidableEq

/-- Idealized 16-byte AES-256-GCM authentication tag: a perfect MAC, i.e. the
authenticated quadruple itself. -/
structure GcmTag where
  key : List Nat
  nonce : List Nat
  aad : EncStructure
  data : List Nat
deriving DecidableEq

/-- An AES-256-GCM output: ciphertext body with the appended tag
(`buf.extend_from_slice(&tag)` in `aes.rs`). -/
structure AeadCt where
  body : List Nat
  tag : GcmTag
deriving DecidableEq

/-- `aes256_gcm_encrypt` of `aes.rs`, idealized (body stands for the
keystream-masked plaintext, which the model elides as a bijection). -/
def aes256_gcm_encrypt (key nonce : List Nat) (aad : EncStructure)
    (plain : List Nat) : AeadCt :=
  { body := plain, tag := { key := key, nonce := nonce, aad := aad, data := plain } }

/-- `aes256_gcm_decrypt` of `aes.rs`, idealized: recompute the tag over the
received body and compare; mismatch is the AEAD `CryptoFailure`. -/
def aes256_gcm_decrypt (key nonce : List Nat) (aad : EncStructure)
    (ct : AeadCt) : Except String (List Nat) :=
  if ct.tag = { key := key, nonce := nonce, aad := aad, data := ct.body } then
    .ok ct.body
  else .error "aead::Error"

/-- `iana::Algorithm::A256GCM`. -/
def A256GCM : Int := 3

/-- A parsed COSE_Encrypt0 item: protected header (algorithm), unprotected
header (IV, optional key id), ciphertext. -/
structure CoseEncrypt0M where
  protectedAlg : Option Int
  iv : List Nat
  keyId : Option (List Nat)
  ciphertext : AeadCt
deriving DecidableEq

/-- `cose_encrypt0` of `encrypt0.rs`: protected `alg = A256GCM`, unprotected
`iv = nonce` (plus optional key id), ciphertext from the AEAD keyed on the
Enc_structure AAD. -/
def cose_encrypt0 (payload secret aad nonce : List Nat)
    (keyId : Option (List Nat)) : CoseEncrypt0M :=
  { protectedAlg := some A256GCM, iv := nonce, keyId := keyId,
    ciphertext :=
      aes256_gcm_encrypt secret nonce
        { protectedAlg := some A256GCM, external := aad } payload }

/-- `slice::first_chunk::<12>`: the first 12 elements, or `none` when fewer
than 12 are available. -/
def firstChunk12 (l : List Nat) : Option (List Nat) :=
  if 12 ≤ l.length then some (l.take 12) else none

/-- `cose_decrypt0` of `encrypt0.rs`: extract the nonce from the unprotected
IV via `first_chunk::<12>` (error mentions the IV length when it is short),
then run the AEAD with the Enc_structure AAD rebuilt from the protected
header and the external AAD. -/
def cose_decrypt0 (e0 : CoseEncrypt0M) (secret aad : List Nat) :
    Except String (List Nat) :=
  match firstChunk12 e0.iv with
  | none =>
    .error ("invalid nonce length, expected 12, got " ++ toString e0.iv.length)
  | some nonce =>
    aes256_gcm_decrypt secret nonce
      { protectedAlg := e0.protectedAlg, external := aad } e0.ciphertext

/-!
## The operation alphabet

The state-mutating core operations, for invariants quantified over arbitrary
sequences of calls.
-/

/-- One state-mutating core operation. -/
inductive Op where
  | createSetting (caller : Principal) (spk : SettingPathKey)
      (input : CreateSettingInput) (now : Nat)
  | updatePayload (caller : Principal) (spk : SettingPathKey)
      (input : UpdateSettingPayloadInput) (now : Nat)
  | updateInfo (caller : Principal) (spk : SettingPathKey)
      (input : UpdateSettingInfoInput) (now : Nat)
  | addReaders (caller : Principal) (spk : SettingPathKey)
      (input : List Principal) (now : Nat)
  | removeReaders (caller : Principal) (spk : SettingPathKey)
      (input : List Principal) (now : Nat)
  | deleteSetting (caller : Principal) (spk : SettingPathKey)
  | deleteNamespace (caller : Principal) (name : String)
  | updateNamespaceInfo (caller : Principal) (input : UpdateNamespaceInput)
      (now : Nat)

/-- The state reached after one operation (its result value discarded). -/
def applyOp (c : Codec) (st : StoreState) : Op → StoreState
  | .createSetting caller spk input now =>
    (create_setting c caller spk input now st).2
  | .updatePayload caller spk input now =>
    (update_setting_payload c caller spk input now st).2
  | .updateInfo caller spk input now =>
    (update_setting_info caller spk input now st).2
  | .addReaders caller spk input now =>
    (setting_add_readers caller spk input now st).2
  | .removeReaders caller spk input now =>
    (setting_remove_readers caller spk input now st).2
  | .deleteSetting caller spk => (delete_setting caller spk st).2
  | .deleteNamespace caller name => (delete_namespace caller name st).2
  | .updateNamespaceInfo caller input now =>
    (update_namespace_info caller input now st).2

/-- The state reached after a sequence of operations. -/
def applyOps (c : Codec) (st : StoreState) (ops : List Op) : StoreState :=
  ops.foldl (applyOp c) st

/-- `true` exactly on `Except.error`. -/
def isErr {α : Type} : Except String α → Bool
  | .error _ => true
  | .ok _ => false

/-- The byte-size summed into `payload_bytes_total` by `create_setting`:
with a `dek` both fields count, without one only the payload counts. -/
def createSize (input : CreateSettingInput) : Nat :=
  match input.dek with
  | some d => optLen input.payload + d.length
  | none => optLen input.payload

/-!
## Concrete fixtures for witnesses and counterexamples
-/

/-- A codec whose external parsers accept everything (the store operations
only consult them for success/failure). -/
def codecT : Codec :=
  { decodeEncrypt0Ok := fun _ => true, decodePayloadOk := fun _ => true }

/-- A namespace with manager `[1]`, auditor `[2]`, user `[3]`. -/
def nsFix : Namespace :=
  { desc := "", created_at := 0, updated_at := 0, max_payload_size := 100,
    payload_bytes_total := 0, status := 0, visibility := 0,
    managers := [[1]], auditors := [[2]], users := [[3]],
    gas_balance := 0, fixed_id_names := [], session_expires_in_ms := 0 }

/-- The same namespace made public. -/
def nsFixPub : Namespace := { nsFix with visibility := 1 }

/-- A scope-0 path for subject `[3]`, setting key `[1]`, version 0. -/
def spkFix : SettingPathKey :=
  { ns := "a", scope := 0, subject := [3], key := [1], version := 0 }

/-- An empty update-payload input (no new payload, dek or status). -/
def updNone : UpdateSettingPayloadInput :=
  { payload := none, status := none, deprecate_current := none, dek := none }

/-- An empty create input. -/
def createNone : CreateSettingInput :=
  { payload := none, desc := none, status := none, tags := none, dek := none }

/-- An empty update-info input. -/
def infoNone : UpdateSettingInfoInput :=
  { desc := none, status := none, tags := none }

/-- A 32-byte AES key fixture. -/
def keyFix : List Nat := List.replicate 32 1

/-- A 12-byte nonce fixture. -/
def nonceFix : List Nat := List.replicate 12 2

/-- A live setting at version 2 whose version-1 payload is archived. -/
def s1c : Setting := { Setting.default with version := 2, payload := some [9] }

/-- A state in which `s1c` lives in the public namespace `a` and an archived
record exists at version 1 — the scenario of a historical-version read. -/
def st1c : StoreState :=
  { namespaces := [("a", nsFixPub)],
    settings := [(spkFix, s1c)],
    payloads := [({ spkFix with version := 1 },
      { archived_at := 5, deprecated := false, payload := some [8], dek := none })] }

/-- A live setting at version 1 (fresh). -/
def s2Fix : Setting := { Setting.default with version := 1 }

/-- A state with one fresh setting in namespace `a`. -/
def st2Fix : StoreState :=
  { namespaces := [("a", nsFix)], settings := [(spkFix, s2Fix)], payloads := [] }

/-- Namespace-only state, no settings. -/
def st3a : StoreState :=
  { namespaces := [("a", nsFix)], settings := [], payloads := [] }

/-- `create_setting` with an empty payload on `st3a` (succeeds, version 1). -/
def step3b : Except String UpdateSettingOutput × StoreState :=
  create_setting codecT [1] spkFix createNone 10 st3a

/-- `update_setting_payload` writing a first real payload at version 1
(succeeds, version 2; nothing is archived because the live payload was
`None`). -/
def step3c : Except String UpdateSettingOutput × StoreState :=
  update_setting_payload codecT [1] { spkFix with version := 1 }
    { updNone with payload := some [9] } 20 step3b.2

/-- A live setting whose version sits at `u32::MAX`. -/
def s4Fix : Setting := { Setting.default with version := 4294967295 }

/-- A state holding `s4Fix`. -/
def st4Fix : StoreState :=
  { namespaces := [("a", nsFix)], settings := [(spkFix, s4Fix)], payloads := [] }

/-- The update of `s4Fix` at its exact current version. -/
def upd4 : Except String UpdateSettingOutput × StoreState :=
  update_setting_payload codecT [1] { spkFix with version := 4294967295 }
    updNone 20 st4Fix

/-- The successful empty update of `s2Fix` at its exact version 1. -/
def updC4 : Except String UpdateSettingOutput × StoreState :=
  update_setting_payload codecT [1] { spkFix with version := 1 } updNone 20
    st2Fix

/-- A read-only (status 1) setting at version 1. -/
def sRO : Setting := { Setting.default with version := 1, status := 1 }

/-- A state holding the read-only setting `sRO`. -/
def stRO : StoreState :=
  { namespaces := [("a", nsFix)], settings := [(spkFix, sRO)], payloads := [] }

/-- A scope-1 path, subject `[3]`. -/
def spk7 : SettingPathKey :=
  { ns := "a", scope := 1, subject := [3], key := [5], version := 0 }

/-- A setting granting supplemental read access to `[7]`. -/
def s7 : Setting := { Setting.default with version := 1, readers := [[7]] }

/-- A state holding `s7` at `spk7` in the private namespace `a`. -/
def st7 : StoreState :=
  { namespaces := [("a", nsFix)], settings := [(spk7, s7)], payloads := [] }

/-- A setting key belonging to namespace `beta`. -/
def spkB : SettingPathKey :=
  { ns := "beta", scope := 0, subject := [3], key := [1], version := 0 }

/-- Namespace `alpha` owns no settings; namespace `beta` owns one. -/
def st8 : StoreState :=
  { namespaces := [("alpha", nsFix), ("beta", nsFix)],
    settings := [(spkB, { Setting.default with version := 1 })],
    payloads := [] }

/-- A setting key in namespace `alpha` whose subject is the management
principal (the empty byte string), which sorts below the anonymous
principal in the candid `Principal` order. -/
def spkM : SettingPathKey :=
  { ns := "alpha", scope := 0, subject := [], key := [1], version := 0 }

/-- Namespace `alpha` owns exactly one setting, at `spkM`. -/
def st8b : StoreState :=
  { namespaces := [("alpha", nsFix)],
    settings := [(spkM, { Setting.default with version := 1 })],
    payloads := [] }

/-- A decoded Encrypt0 item whose unprotected IV was extended to 13 bytes
(the true 12-byte nonce plus one trailing byte). -/
def e9Fix : CoseEncrypt0M :=
  { cose_encrypt0 [1, 2] keyFix [] nonceFix none with iv := nonceFix ++ [0] }

/-! ## Association-list map lemmas -/

theorem alookup_ainsert_self {α β : Type} [DecidableEq α]
    (l : List (α × β)) (k : α) (v : β) : alookup (ainsert l k v) k = some v := by
  induction l with
  | nil => simp [ainsert, alookup]
  | cons hd tl ih =>
    by_cases h : hd.1 = k
    · simp [ainsert, alookup, h]
    · simpa [ainsert, alookup, h] using ih

theorem alookup_ainsert_ne {α β : Type} [DecidableEq α]
    (l : List (α × β)) (k k' : α) (v : β) (h : k' ≠ k) :
    alookup (ainsert l k v) k' = alookup l k' := by
  induction l with
  | nil => simp [ainsert, alookup, Ne.symm h]
  | cons hd tl ih =>
    by_cases h1 : hd.1 = k
    · subst h1
      simp [ainsert, alookup, Ne.symm h]
    · by_cases h2 : hd.1 = k'
      · simp [ainsert, alookup, h1, h2, h]
      · simpa [ainsert, alookup, h1, h2] using ih

theorem alookup_aremove_ne {α β : Type} [DecidableEq α]
    (l : List (α × β)) (k k' : α) (h : k' ≠ k) :
    alookup (aremove l k) k' = alookup l k' := by
  induction l with
  | nil => simp [aremove, alookup]
  | cons hd tl ih =>
    by_cases h1 : hd.1 = k
    · simp [aremove, alookup, h1, ih, Ne.symm h]
    · by_cases h2 : hd.1 = k'
      · simp [aremove, alookup, h1, h2, h]
      · simpa [aremove, alookup, h1, h2] using ih

/-!
## Claim C9: IV length handling in `cose_decrypt0`
-/

/-- C9 (corrected): `cose_decrypt0` rejects an IV only when it is SHORTER
than 12 bytes (`first_chunk::<12>` returns `None` only then); an IV of 12 or
more bytes is truncated to its first 12 bytes and decryption proceeds. -/
theorem C9_iv_truncation (e0 : CoseEncrypt0M) (secret aad : List Nat) :
    (e0.iv.length < 12 →
      cose_decrypt0 e0 secret aad =
        .error ("invalid nonce length, expected 12, got " ++
          toString e0.iv.length)) ∧
    (12 ≤ e0.iv.length →
      cose_decrypt0 e0 secret aad =
        aes256_gcm_decrypt secret (e0.iv.take 12)
          { protectedAlg := e0.protectedAlg, external := aad } e0.ciphertext) := by
  constructor
  · intro h
    simp [cose_decrypt0, firstChunk12, Nat.not_le.mpr h]
  · intro h
    simp [cose_decrypt0, firstChunk12, h]

/-- C9 counterexample: a 13-byte IV (true nonce plus one trailing byte) is
NOT rejected — decryption succeeds — refuting "fails for every IV length
different from 12". -/
theorem C9_counterexample :
    e9Fix.iv.length = 13 ∧ cose_decrypt0 e9Fix keyFix [] = .ok [1, 2] := by
  decide

/-- C9 witness: the short-IV branch of `C9_iv_truncation` at a 3-byte IV. -/
theorem C9_iv_truncation_witness :
    cose_decrypt0 { cose_encrypt0 [1, 2] keyFix [] nonceFix none with iv := [1, 2, 3] }
        keyFix [] =
      .error ("invalid nonce length, expected 12, got " ++ toString (3 : Nat)) :=
  (C9_iv_truncation
    { cose_encrypt0 [1, 2] keyFix [] nonceFix none with iv := [1, 2, 3] }
    keyFix []).1 (by decide)

/-!
## Claim C6: Encrypt0 round trip, AAD binding, tamper rejection
-/

/-- C6 (confirmed, over the idealized external AEAD): for every message, every
32-byte key, every AAD, every 12-byte nonce and optional key id, decrypting
the encryption under the same key and AAD returns the message; decrypting
under any other AAD fails; and decrypting after replacing the AEAD ciphertext
by any different one that alters the body or the appended tag (but not both,
as any single-byte flip does) fails. -/
theorem C6_encrypt0_roundtrip (m secret aad nonce : List Nat)
    (kid : Option (List Nat)) (hk : secret.length = 32)
    (hn : nonce.length = 12) :
    cose_decrypt0 (cose_encrypt0 m secret aad nonce kid) secret aad = .ok m ∧
    (∀ aad2, aad2 ≠ aad →
      isErr (cose_decrypt0 (cose_encrypt0 m secret aad nonce kid) secret aad2)
        = true) ∧
    (∀ ct2 : AeadCt, ct2 ≠ (cose_encrypt0 m secret aad nonce kid).ciphertext →
      (ct2.body = m ∨
        ct2.tag = (cose_encrypt0 m secret aad nonce kid).ciphertext.tag) →
      isErr (cose_decrypt0
        { cose_encrypt0 m secret aad nonce kid with ciphertext := ct2 }
        secret aad) = true) := by
  have h12 : 12 ≤ nonce.length := le_of_eq hn.symm
  have htake : nonce.take 12 = nonce := by
    rw [← hn]; simp
  refine ⟨?_, ?_, ?_⟩
  · simp [cose_decrypt0, cose_encrypt0, firstChunk12, h12, htake,
      aes256_gcm_encrypt, aes256_gcm_decrypt]
  · intro aad2 hne
    simp [cose_decrypt0, cose_encrypt0, firstChunk12, h12, htake,
      aes256_gcm_encrypt, aes256_gcm_decrypt, isErr, Ne.symm hne]
  · intro ct2 hne hcase
    have hcond : ct2.tag ≠
        { key := secret, nonce := nonce,
          aad := { protectedAlg := some A256GCM, external := aad },
          data := ct2.body } := by
      intro heq
      rcases hcase with hbody | htag
      · apply hne
        cases ct2 with
        | mk b t =>
          simp only at hbody heq
          subst hbody
          simp [cose_encrypt0, aes256_gcm_encrypt, heq]
      · apply hne
        cases ct2 with
        | mk b t =>
          simp only [cose_encrypt0, aes256_gcm_encrypt] at htag heq ⊢
          rw [htag] at heq
          have hbm : m = b := by
            have := congrArg GcmTag.data heq
            simpa using this
          subst hbm
          rw [htag]
    simp [cose_decrypt0, cose_encrypt0, firstChunk12, h12, htake,
      aes256_gcm_decrypt, isErr, hcond]

/-- C6 witness: the round trip at a concrete message, key, AAD and nonce,
with a concretely tampered body and a foreign AAD both rejected. -/
theorem C6_encrypt0_roundtrip_witness :
    cose_decrypt0 (cose_encrypt0 [5] keyFix [7] nonceFix none) keyFix [7] =
      .ok [5] ∧
    isErr (cose_decrypt0 (cose_encrypt0 [5] keyFix [7] nonceFix none) keyFix [8])
      = true ∧
    isErr (cose_decrypt0
      { cose_encrypt0 [5] keyFix [7] nonceFix none with ciphertext :=
          { (cose_encrypt0 [5] keyFix [7] nonceFix none).ciphertext with
            body := [6] } } keyFix [7]) = true := by
  have h := C6_encrypt0_roundtrip [5] keyFix [7] nonceFix none
    (by decide) (by decide)
  exact ⟨h.1, h.2.1 [8] (by decide), h.2.2 _ (by decide) (by decide)⟩

/-!
## Claim C7: `has_kek_permission`
-/

/-- C7 (corrected): besides the subject / auditor / (scope-0 ∧ manager)
clauses the claim lists, `has_kek_permission` also grants access when the
live setting exists and the caller is in its `readers` set; archived
namespaces still deny every non-manager. -/
theorem C7_kek_permission (caller : Principal) (spk : SettingPathKey)
    (st : StoreState) (ns : Namespace)
    (h : alookup st.namespaces spk.ns = some ns) :
    ((ns.status < 0 ∧ caller ∉ ns.managers) →
      has_kek_permission caller spk st = false) ∧
    (¬ (ns.status < 0 ∧ caller ∉ ns.managers) →
      (has_kek_permission caller spk st = true ↔
        caller = spk.subject ∨ caller ∈ ns.auditors
          ∨ (spk.scope = 0 ∧ caller ∈ ns.managers)
          ∨ ∃ s, alookup st.settings spk.v0 = some s ∧ caller ∈ s.readers)) := by
  simp only [has_kek_permission, h]
  constructor
  · intro hc
    simp [hc]
  · intro hc
    rw [if_neg hc]
    by_cases h2 : caller = spk.subject ∨ caller ∈ ns.auditors
        ∨ (spk.scope = 0 ∧ caller ∈ ns.managers)
    · rw [if_pos h2]
      have hres : caller = spk.subject ∨ caller ∈ ns.auditors
          ∨ (spk.scope = 0 ∧ caller ∈ ns.managers)
          ∨ ∃ s, alookup st.settings spk.v0 = some s ∧ caller ∈ s.readers := by
        tauto
      simpa using hres
    · rw [if_neg h2]
      cases hs : alookup st.settings spk.v0 with
      | none =>
        simp only [false_iff, Bool.false_eq_true]
        push_neg at h2
        rintro (h | h | h | ⟨s, hss, _⟩)
        · exact h2.1 h
        · exact h2.2.1 h
        · exact h2.2.2 h.1 h.2
        · simp at hss
      | some s =>
        simp only [decide_eq_true_eq]
        constructor
        · intro hr
          exact Or.inr (Or.inr (Or.inr ⟨s, rfl, hr⟩))
        · rintro (h | h | h | ⟨s2, hss, hr⟩)
          · exact absurd (Or.inl h) h2
          · exact absurd (Or.inr (Or.inl h)) h2
          · exact absurd (Or.inr (Or.inr h)) h2
          · injection hss with hss
            rw [← hss] at hr
            exact hr

/-- C7 counterexample: a caller who is only in the setting's `readers` set —
neither the subject, nor an auditor, nor a scope-0 manager, with the
namespace not archived — still gets KEK permission, refuting the claim's
"if and only if". -/
theorem C7_counterexample :
    has_kek_permission [7] spk7 st7 = true ∧
    ¬ nsFix.status < 0 ∧
    [7] ≠ spk7.subject ∧ [7] ∉ nsFix.auditors ∧
    ¬ (spk7.scope = 0 ∧ [7] ∈ nsFix.managers) := by
  decide

/-- C7 witness: `C7_kek_permission` instantiated for the auditor `[2]` on the
concrete store `st7`. -/
theorem C7_kek_permission_witness :
    ((nsFix.status < 0 ∧ [2] ∉ nsFix.managers) →
      has_kek_permission [2] spk7 st7 = false) ∧
    (¬ (nsFix.status < 0 ∧ [2] ∉ nsFix.managers) →
      (has_kek_permission [2] spk7 st7 = true ↔
        [2] = spk7.subject ∨ [2] ∈ nsFix.auditors
          ∨ (spk7.scope = 0 ∧ [2] ∈ nsFix.managers)
          ∨ ∃ s, alookup st7.settings spk7.v0 = some s ∧ [2] ∈ s.readers)) :=
  C7_kek_permission [2] spk7 st7 nsFix (by decide)

/-!
## Claim C8: `delete_namespace` emptiness check
-/

/-- C8 (code bug): the emptiness scan is an unbounded `RangeFrom`, so (i) the
manager of the empty namespace `alpha` cannot delete it while any other
namespace with a greater key owns a setting — the error even names `alpha` as
"not empty" — and (ii) `alpha` CAN be deleted while it still owns a setting
whose subject principal sorts below `Principal::anonymous()`. -/
theorem C8_delete_namespace_eval :
    nsFix.can_write_namespace [1] = true ∧
    st8.settings.all (fun kv => decide (kv.1.ns ≠ "alpha")) = true ∧
    delete_namespace [1] "alpha" st8 =
      (.error "namespace alpha is not empty", st8) ∧
    st8b.settings.any (fun kv => decide (kv.1.ns = "alpha")) = true ∧
    delete_namespace [1] "alpha" st8b =
      (.ok (), { st8b with namespaces := [] }) := by
  decide

/-!
## Claim C1: `get_setting` and historical versions
-/

/-- C1 (corrected): for a caller whose read permission admits the record,
`get_setting` succeeds only when the requested version is 0 or exactly the
stored version, and always serves the LIVE record; a requested version
strictly between 0 and the stored version fails with a version-mismatch
error (it is never served from the archive — that is
`get_setting_archived_payload`'s job); a version above the stored one is
filtered out by `try_get_setting` and reported as not-found. -/
theorem C1_get_setting_versions (caller : Principal) (spk : SettingPathKey)
    (st : StoreState) :
    (∀ s, try_get_setting caller spk st = some s →
      ((spk.version = 0 ∨ spk.version = s.version) →
        get_setting caller spk st = .ok (s.into_info spk.subject spk.key true)) ∧
      (0 < spk.version → spk.version < s.version →
        get_setting caller spk st = .error "version mismatch")) ∧
    (∀ s0, alookup st.settings spk.v0 = some s0 → s0.version < spk.version →
      get_setting caller spk st = .error "setting not found or no permission") := by
  constructor
  · intro s h
    constructor
    · intro hv
      have hcond : ¬ (spk.version ≠ 0 ∧ spk.version ≠ s.version) := by
        rcases hv with h0 | hv
        · exact fun hc => hc.1 h0
        · exact fun hc => hc.2 hv
      simp [get_setting, h, hcond]
    · intro h0 hlt
      have hcond : spk.version ≠ 0 ∧ spk.version ≠ s.version :=
        ⟨Nat.pos_iff_ne_zero.mp h0, Nat.ne_of_lt hlt⟩
      simp [get_setting, h, hcond]
  · intro s0 hs0 hlt
    have hnone : try_get_setting caller spk st = none := by
      unfold try_get_setting
      cases hns : alookup st.namespaces spk.ns with
      | none => rfl
      | some ns =>
        by_cases hcan : ns.read_setting_perm caller spk = some false
        · simp [hcan]
        · simp only [if_neg hcan, hs0]
          have hv : ¬ spk.version ≤ s0.version := Nat.not_le.mpr hlt
          simp [hv]
    simp [get_setting, hnone]

/-- C1 counterexample: a public-namespace caller requests version 1 of a
setting stored at version 2 whose version-1 archive exists; `get_setting`
fails with a version mismatch instead of serving the archived record. -/
theorem C1_counterexample :
    try_get_setting [9] { spkFix with version := 1 } st1c = some s1c ∧
    s1c.version = 2 ∧
    alookup st1c.payloads { spkFix with version := 1 } ≠ none ∧
    get_setting [9] { spkFix with version := 1 } st1c =
      .error "version mismatch" := by
  decide

/-- C1 witness: the amended theorem at the concrete store `st1c`: a
version-0 request serves the live record, and the version-1 request fails. -/
theorem C1_get_setting_versions_witness :
    get_setting [9] spkFix st1c = .ok (s1c.into_info spkFix.subject spkFix.key true) ∧
    get_setting [9] { spkFix with version := 1 } st1c =
      .error "version mismatch" :=
  ⟨((C1_get_setting_versions [9] spkFix st1c).1 s1c (by decide)).1
      (Or.inl (by decide)),
   ((C1_get_setting_versions [9] { spkFix with version := 1 } st1c).1 s1c
      (by decide)).2 (by decide) (by decide)⟩

/-!
## Claim C2: stale `expected_version` on `update_setting_payload`
-/

/-- C2 (confirmed): when the path version differs from the stored version,
`update_setting_payload` fails and returns the store (settings, archives and
namespaces) exactly as it was — no partial mutation; and whenever the call
additionally passes the earlier permission and size checks, the error is
precisely the version-mismatch one. -/
theorem C2_stale_version (c : Codec) (caller : Principal) (spk : SettingPathKey)
    (input : UpdateSettingPayloadInput) (now : Nat) (st : StoreState)
    (ns : Namespace) (s : Setting)
    (hns : alookup st.namespaces spk.ns = some ns)
    (hs : alookup st.settings spk.v0 = some s)
    (hv : s.version ≠ spk.version) :
    (update_setting_payload c caller spk input now st).2 = st ∧
    isErr (update_setting_payload c caller spk input now st).1 = true ∧
    (ns.can_write_setting caller spk = true →
      optLen input.payload ≤ ns.max_payload_size →
      (update_setting_payload c caller spk input now st).1 =
        .error "version mismatch") := by
  by_cases hperm : ns.can_write_setting caller spk = true
  · by_cases hsize : optLen input.payload > ns.max_payload_size
    · have hres : update_setting_payload c caller spk input now st =
          (.error "payload size exceeds the limit", st) := by
        simp [update_setting_payload, hns, hperm, hsize]
      rw [hres]
      exact ⟨rfl, rfl, fun _ hle => absurd hsize (Nat.not_lt.mpr hle)⟩
    · have hres : update_setting_payload c caller spk input now st =
          (.error "version mismatch", st) := by
        simp [update_setting_payload, hns, hperm, hsize, hs, hv]
      rw [hres]
      exact ⟨rfl, rfl, fun _ _ => rfl⟩
  · have hres : update_setting_payload c caller spk input now st =
        (.error "no permission", st) := by
      simp [update_setting_payload, hns, hperm]
    rw [hres]
    exact ⟨rfl, rfl, fun hp _ => absurd hp hperm⟩

/-- C2 witness: a stale-version call (path version 5, stored version 1) on
the concrete store `st2Fix`. -/
theorem C2_stale_version_witness :
    (update_setting_payload codecT [1] { spkFix with version := 5 } updNone 0
      st2Fix).2 = st2Fix ∧
    isErr (update_setting_payload codecT [1] { spkFix with version := 5 }
      updNone 0 st2Fix).1 = true ∧
    (nsFix.can_write_setting [1] { spkFix with version := 5 } = true →
      optLen updNone.payload ≤ nsFix.max_payload_size →
      (update_setting_payload codecT [1] { spkFix with version := 5 } updNone 0
        st2Fix).1 = .error "version mismatch") :=
  C2_stale_version codecT [1] { spkFix with version := 5 } updNone 0 st2Fix
    nsFix s2Fix (by decide) (by decide) (by decide)

/-!
## State-characterization lemmas for the operation alphabet
-/

theorem create_commit_case (ns : Namespace) (spk : SettingPathKey)
    (input : CreateSettingInput) (now size : Nat) (st : StoreState)
    (hns : alookup st.namespaces spk.ns = some ns) :
    (create_setting_commit ns spk input now size st).2.payloads = st.payloads ∧
    ((create_setting_commit ns spk input now size st).2 = st ∨
      ∃ ns2 size2, alookup st.namespaces spk.ns = some ns2 ∧
        alookup st.settings spk = none ∧
        (create_setting_commit ns spk input now size st).2.settings =
          ainsert st.settings spk (createdSetting input now) ∧
        (create_setting_commit ns spk input now size st).2.namespaces =
          ainsert st.namespaces spk.ns (nsAddBytes ns2 size2)) := by
  by_cases hc : (alookup st.settings spk).isSome
  · simp [create_setting_commit, hc]
  · have hnone : alookup st.settings spk = none :=
      Option.not_isSome_iff_eq_none.mp hc
    refine ⟨?_, Or.inr ⟨ns, size, hns, hnone, ?_, ?_⟩⟩ <;>
      simp [create_setting_commit, hc]

theorem create_state (c : Codec) (caller : Principal) (spk : SettingPathKey)
    (input : CreateSettingInput) (now : Nat) (st : StoreState) :
    (create_setting c caller spk input now st).2.payloads = st.payloads ∧
    ((create_setting c caller spk input now st).2 = st ∨
      ∃ ns2 size2, alookup st.namespaces spk.ns = some ns2 ∧
        alookup st.settings spk = none ∧
        (create_setting c caller spk input now st).2.settings =
          ainsert st.settings spk (createdSetting input now) ∧
        (create_setting c caller spk input now st).2.namespaces =
          ainsert st.namespaces spk.ns (nsAddBytes ns2 size2)) := by
  unfold create_setting
  split
  · simp
  next ns hns =>
    split
    · simp
    split
    · simp
    split
    · simp
    split
    next dek =>
      split
      · simp
      split
      next p =>
        split
        · simp
        split
        · simp
        exact create_commit_case ns spk input now _ st hns
      next =>
        exact create_commit_case ns spk input now _ st hns
    next =>
      split
      next p =>
        split
        · simp
        exact create_commit_case ns spk input now _ st hns
      next =>
        exact create_commit_case ns spk input now _ st hns

theorem update_commit_case (ns : Namespace) (s : Setting)
    (spk : SettingPathKey) (input : UpdateSettingPayloadInput)
    (now size : Nat) (st : StoreState)
    (hns : alookup st.namespaces spk.ns = some ns)
    (hs : alookup st.settings spk.v0 = some s)
    (hv : s.version = spk.version) (hst : s.status < 1) :
    (update_setting_commit ns s spk input now size st).2 = st ∨
      ∃ ns2 s2, alookup st.namespaces spk.ns = some ns2 ∧
        alookup st.settings spk.v0 = some s2 ∧ s2.version = spk.version ∧
        s2.status < 1 ∧
        (update_setting_commit ns s spk input now size st).2.settings =
          ainsert st.settings spk.v0 (updatedSetting s2 input now) ∧
        (update_setting_commit ns s spk input now size st).2.namespaces =
          ainsert st.namespaces spk.ns (nsAddBytes ns2 size) ∧
        (update_setting_commit ns s spk input now size st).2.payloads =
          archivedAfter s2 input now spk st.payloads := by
  refine Or.inr ⟨ns, s, hns, hs, hv, hst, ?_, ?_, ?_⟩ <;>
    simp [update_setting_commit]

theorem update_payload_state (c : Codec) (caller : Principal)
    (spk : SettingPathKey) (input : UpdateSettingPayloadInput) (now : Nat)
    (st : StoreState) :
    (update_setting_payload c caller spk input now st).2 = st ∨
      ∃ ns2 s2, alookup st.namespaces spk.ns = some ns2 ∧
        alookup st.settings spk.v0 = some s2 ∧ s2.version = spk.version ∧
        s2.status < 1 ∧
        (update_setting_payload c caller spk input now st).2.settings =
          ainsert st.settings spk.v0 (updatedSetting s2 input now) ∧
        (update_setting_payload c caller spk input now st).2.namespaces =
          ainsert st.namespaces spk.ns
            (nsAddBytes ns2 (optLen input.payload + optLen input.dek)) ∧
        (update_setting_payload c caller spk input now st).2.payloads =
          archivedAfter s2 input now spk st.payloads := by
  unfold update_setting_payload
  split
  · simp
  next ns hns =>
    split
    · simp
    split
    · simp
    split
    · simp
    next s hs =>
      split
      · simp
      next hv =>
        split
        · simp
        next hst =>
          have hv2 : s.version = spk.version := by
            by_contra hne
            exact hv hne
          have hst2 : s.status < 1 := by omega
          split
          · split
            next p =>
              split
              · simp
              exact update_commit_case ns s spk input now _ st hns hs hv2 hst2
            next =>
              exact update_commit_case ns s spk input now _ st hns hs hv2 hst2
          · split
            next p =>
              split
              · simp
              exact update_commit_case ns s spk input now _ st hns hs hv2 hst2
            next =>
              exact update_commit_case ns s spk input now _ st hns hs hv2 hst2

theorem wsm_state (caller : Principal) (spk : SettingPathKey)
    (f : Setting → Setting) (st : StoreState) :
    (with_setting_mut caller spk f st).2.namespaces = st.namespaces ∧
    (with_setting_mut caller spk f st).2.payloads = st.payloads ∧
    ((with_setting_mut caller spk f st).2 = st ∨
      ∃ s, alookup st.settings spk.v0 = some s ∧ s.version = spk.version ∧
        s.status < 1 ∧
        (with_setting_mut caller spk f st).2.settings =
          ainsert st.settings spk.v0 (f s)) := by
  unfold with_setting_mut
  split
  · simp
  next ns hns =>
    split
    · simp
    split
    · simp
    next s hs =>
      split
      · simp
      next hv =>
        split
        · simp
        next hst =>
          have hv2 : s.version = spk.version := by
            by_contra hne
            exact hv hne
          have hst2 : s.status < 1 := by omega
          exact ⟨by simp, by simp, Or.inr ⟨s, hs, hv2, hst2, by simp⟩⟩

theorem delete_setting_state (caller : Principal) (spk : SettingPathKey)
    (st : StoreState) :
    (delete_setting caller spk st).2.namespaces = st.namespaces ∧
    ((delete_setting caller spk st).2 = st ∨
      ∃ s, alookup st.settings spk.v0 = some s ∧ s.version = spk.version ∧
        s.status < 1 ∧
        (delete_setting caller spk st).2.settings =
          aremove st.settings spk.v0) := by
  unfold delete_setting
  split
  · simp
  next ns hns =>
    split
    · simp
    split
    · simp
    next s hs =>
      split
      · simp
      next hv =>
        split
        · simp
        next hst =>
          have hv2 : s.version = spk.version := by
            by_contra hne
            exact hv hne
          have hst2 : s.status < 1 := by omega
          refine ⟨?_, Or.inr ⟨s, hs, hv2, hst2, ?_⟩⟩ <;>
            split <;> simp

theorem delete_namespace_state (caller : Principal) (name : String)
    (st : StoreState) :
    (delete_namespace caller name st).2.settings = st.settings ∧
    (delete_namespace caller name st).2.payloads = st.payloads ∧
    ((delete_namespace caller name st).2.namespaces = st.namespaces ∨
      (delete_namespace caller name st).2.namespaces =
        aremove st.namespaces name) := by
  unfold delete_namespace
  split
  · simp
  next ns hns =>
    split
    · simp
    split
    · simp
    · simp

theorem update_namespace_info_state (caller : Principal)
    (input : UpdateNamespaceInput) (now : Nat) (st : StoreState) :
    (update_namespace_info caller input now st).2.settings = st.settings ∧
    (update_namespace_info caller input now st).2.payloads = st.payloads ∧
    ((update_namespace_info caller input now st).2 = st ∨
      ∃ ns ns1, alookup st.namespaces input.name = some ns ∧
        ns1.payload_bytes_total = ns.payload_bytes_total ∧
        (update_namespace_info caller input now st).2.namespaces =
          ainsert st.namespaces input.name ns1) := by
  unfold update_namespace_info
  split
  · simp
  next ns hns =>
    split
    · simp
    exact ⟨by simp, by simp,
      Or.inr ⟨ns, nsInfoUpdated ns input now, hns, by simp [nsInfoUpdated], by simp⟩⟩

theorem update_setting_info_snd (caller : Principal) (spk : SettingPathKey)
    (input : UpdateSettingInfoInput) (now : Nat) (st : StoreState) :
    (update_setting_info caller spk input now st).2 =
      (with_setting_mut caller spk (infoMut input now) st).2 := by
  unfold update_setting_info
  rcases hw : with_setting_mut caller spk (infoMut input now) st with ⟨r, st1⟩
  cases r <;> simp

theorem setting_add_readers_snd (caller : Principal) (spk : SettingPathKey)
    (input : List Principal) (now : Nat) (st : StoreState) :
    (setting_add_readers caller spk input now st).2 =
      (with_setting_mut caller spk (addReadersMut input now) st).2 := by
  unfold setting_add_readers
  rcases hw : with_setting_mut caller spk (addReadersMut input now) st with ⟨r, st1⟩
  cases r <;> simp

theorem setting_remove_readers_snd (caller : Principal) (spk : SettingPathKey)
    (input : List Principal) (now : Nat) (st : StoreState) :
    (setting_remove_readers caller spk input now st).2 =
      (with_setting_mut caller spk (removeReadersMut input now) st).2 := by
  unfold setting_remove_readers
  rcases hw : with_setting_mut caller spk (removeReadersMut input now) st with ⟨r, st1⟩
  cases r <;> simp

theorem alookup_aremove_self {α β : Type} [DecidableEq α]
    (l : List (α × β)) (k : α) : alookup (aremove l k) k = none := by
  induction l with
  | nil => simp [aremove, alookup]
  | cons hd tl ih =>
    by_cases h1 : hd.1 = k
    · simpa [aremove, h1] using ih
    · simpa [aremove, alookup, h1] using ih

theorem create_commit_ok (ns : Namespace) (spk : SettingPathKey)
    (input : CreateSettingInput) (now size : Nat) (st : StoreState)
    (out : UpdateSettingOutput) (st2 : StoreState)
    (h : create_setting_commit ns spk input now size st = (.ok out, st2)) :
    out = { created_at := now, updated_at := now, version := 1 } ∧
    alookup st2.settings spk = some (createdSetting input now) ∧
    alookup st2.namespaces spk.ns = some (nsAddBytes ns size) := by
  unfold create_setting_commit at h
  by_cases hc : (alookup st.settings spk).isSome
  · rw [if_pos hc] at h
    simp at h
  · rw [if_neg hc] at h
    have hfst := congrArg Prod.fst h
    have hsnd := congrArg Prod.snd h
    simp only [Prod.fst, Prod.snd] at hfst hsnd
    injection hfst with hout
    refine ⟨hout.symm, ?_, ?_⟩
    · rw [← hsnd]
      exact alookup_ainsert_self _ _ _
    · rw [← hsnd]
      simpa using alookup_ainsert_self st.namespaces spk.ns (nsAddBytes ns size)

theorem create_ok (c : Codec) (caller : Principal) (spk : SettingPathKey)
    (input : CreateSettingInput) (now : Nat) (st : StoreState)
    (out : UpdateSettingOutput) (st2 : StoreState)
    (h : create_setting c caller spk input now st = (.ok out, st2)) :
    out = { created_at := now, updated_at := now, version := 1 } ∧
    alookup st2.settings spk = some (createdSetting input now) ∧
    ∃ ns, alookup st.namespaces spk.ns = some ns ∧
      alookup st2.namespaces spk.ns = some (nsAddBytes ns (createSize input)) := by
  unfold create_setting at h
  split at h
  · simp at h
  next ns hns =>
    split at h
    · simp at h
    split at h
    · simp at h
    split at h
    · simp at h
    split at h
    next dek hdek =>
      split at h
      · simp at h
      split at h
      next p hp =>
        split at h
        · simp at h
        split at h
        · simp at h
        · obtain ⟨h1, h2, h3⟩ := create_commit_ok ns spk input now _ st out st2 h
          refine ⟨h1, h2, ns, hns, ?_⟩
          have : createSize input = p.length + dek.length := by
            simp [createSize, hdek, hp, optLen]
          rw [this]
          exact h3
      next hp =>
        obtain ⟨h1, h2, h3⟩ := create_commit_ok ns spk input now _ st out st2 h
        refine ⟨h1, h2, ns, hns, ?_⟩
        have : createSize input = dek.length := by
          simp [createSize, hdek, hp, optLen]
        rw [this]
        exact h3
    next hdek =>
      split at h
      next p hp =>
        split at h
        · simp at h
        · obtain ⟨h1, h2, h3⟩ := create_commit_ok ns spk input now _ st out st2 h
          refine ⟨h1, h2, ns, hns, ?_⟩
          have : createSize input = p.length := by
            simp [createSize, hdek, hp, optLen]
          rw [this]
          exact h3
      next hp =>
        obtain ⟨h1, h2, h3⟩ := create_commit_ok ns spk input now _ st out st2 h
        refine ⟨h1, h2, ns, hns, ?_⟩
        have : createSize input = 0 := by
          simp [createSize, hdek, hp, optLen]
        rw [this]
        exact h3

theorem update_commit_ok (ns : Namespace) (s : Setting) (spk : SettingPathKey)
    (input : UpdateSettingPayloadInput) (now size : Nat) (st : StoreState)
    (out : UpdateSettingOutput) (st2 : StoreState)
    (h : update_setting_commit ns s spk input now size st = (.ok out, st2)) :
    out = { created_at := s.created_at, updated_at := now,
            version := satAdd32 s.version 1 } ∧
    alookup st2.settings spk.v0 = some (updatedSetting s input now) ∧
    alookup st2.namespaces spk.ns = some (nsAddBytes ns size) ∧
    (∀ pl, s.payload = some pl →
      alookup st2.payloads spk = some (archivedOf s input now pl)) := by
  unfold update_setting_commit at h
  have hfst := congrArg Prod.fst h
  have hsnd := congrArg Prod.snd h
  simp only [Prod.fst, Prod.snd] at hfst hsnd
  injection hfst with hout
  have hca : (updatedSetting s input now).created_at = s.created_at := by
    simp [updatedSetting]
  have hua : (updatedSetting s input now).updated_at = now := by
    simp [updatedSetting]
  have hver : (updatedSetting s input now).version = satAdd32 s.version 1 := by
    simp [updatedSetting]
  refine ⟨?_, ?_, ?_, ?_⟩
  · rw [← hout, hca, hua, hver]
  · rw [← hsnd]
    simpa using alookup_ainsert_self st.settings spk.v0 (updatedSetting s input now)
  · rw [← hsnd]
    simpa using alookup_ainsert_self st.namespaces spk.ns (nsAddBytes ns size)
  · intro pl hpl
    rw [← hsnd]
    show alookup (archivedAfter s input now spk st.payloads) spk =
      some (archivedOf s input now pl)
    rw [archivedAfter, hpl]
    exact alookup_ainsert_self _ _ _

theorem update_ok (c : Codec) (caller : Principal) (spk : SettingPathKey)
    (input : UpdateSettingPayloadInput) (now : Nat) (st : StoreState)
    (ns : Namespace) (s : Setting) (out : UpdateSettingOutput)
    (st2 : StoreState)
    (hns : alookup st.namespaces spk.ns = some ns)
    (hs : alookup st.settings spk.v0 = some s)
    (h : update_setting_payload c caller spk input now st = (.ok out, st2)) :
    s.version = spk.version ∧ s.status < 1 ∧
    out = { created_at := s.created_at, updated_at := now,
            version := satAdd32 s.version 1 } ∧
    alookup st2.settings spk.v0 = some (updatedSetting s input now) ∧
    alookup st2.namespaces spk.ns =
      some (nsAddBytes ns (optLen input.payload + optLen input.dek)) ∧
    (∀ pl, s.payload = some pl →
      alookup st2.payloads spk = some (archivedOf s input now pl)) := by
  unfold update_setting_payload at h
  rw [hns] at h
  simp only [] at h
  split at h
  · simp at h
  split at h
  · simp at h
  rw [hs] at h
  simp only [] at h
  split at h
  · simp at h
  next hv =>
    split at h
    · simp at h
    next hst =>
      have hv2 : s.version = spk.version := by
        by_contra hne
        exact hv hne
      have hst2 : s.status < 1 := by omega
      split at h
      · split at h
        next p hp =>
          split at h
          · simp at h
          · obtain ⟨h1, h2, h3, h4⟩ :=
              update_commit_ok ns s spk input now _ st out st2 h
            exact ⟨hv2, hst2, h1, h2, h3, h4⟩
        next hp =>
          obtain ⟨h1, h2, h3, h4⟩ :=
            update_commit_ok ns s spk input now _ st out st2 h
          exact ⟨hv2, hst2, h1, h2, h3, h4⟩
      · split at h
        next p hp =>
          split at h
          · simp at h
          · obtain ⟨h1, h2, h3, h4⟩ :=
              update_commit_ok ns s spk input now _ st out st2 h
            exact ⟨hv2, hst2, h1, h2, h3, h4⟩
        next hp =>
          obtain ⟨h1, h2, h3, h4⟩ :=
            update_commit_ok ns s spk input now _ st out st2 h
          exact ⟨hv2, hst2, h1, h2, h3, h4⟩

theorem update_payload_readonly (c : Codec) (caller : Principal)
    (spk : SettingPathKey) (input : UpdateSettingPayloadInput) (now : Nat)
    (st : StoreState) (s : Setting)
    (hs : alookup st.settings spk.v0 = some s) (h1 : (1 : Int) ≤ s.status) :
    (update_setting_payload c caller spk input now st).2 = st ∧
    isErr (update_setting_payload c caller spk input now st).1 = true ∧
    (∀ ns, alookup st.namespaces spk.ns = some ns →
      ns.can_write_setting caller spk = true → s.version = spk.version →
      optLen input.payload ≤ ns.max_payload_size →
      (update_setting_payload c caller spk input now st).1 =
        .error "readonly setting can not be updated") := by
  rcases hns : alookup st.namespaces spk.ns with _ | ns
  · have hres : update_setting_payload c caller spk input now st =
        (.error ("namespace " ++ spk.ns ++ " not found"), st) := by
      simp [update_setting_payload, hns]
    rw [hres]
    exact ⟨rfl, rfl, fun ns2 hns2 => by cases hns2⟩
  · by_cases hperm : ns.can_write_setting caller spk = true
    · by_cases hsize : optLen input.payload > ns.max_payload_size
      · have hres : update_setting_payload c caller spk input now st =
            (.error "payload size exceeds the limit", st) := by
          simp [update_setting_payload, hns, hperm, hsize]
        rw [hres]
        refine ⟨rfl, rfl, fun ns2 hns2 _ _ hle => ?_⟩
        injection hns2 with hns2
        rw [← hns2] at hle
        exact absurd hsize (Nat.not_lt.mpr hle)
      · by_cases hv : s.version = spk.version
        · have hres : update_setting_payload c caller spk input now st =
              (.error "readonly setting can not be updated", st) := by
            simp [update_setting_payload, hns, hperm, hsize, hs, hv, h1]
          rw [hres]
          exact ⟨rfl, rfl, fun _ _ _ _ _ => rfl⟩
        · have hres : update_setting_payload c caller spk input now st =
              (.error "version mismatch", st) := by
            simp [update_setting_payload, hns, hperm, hsize, hs, hv]
          rw [hres]
          exact ⟨rfl, rfl, fun _ _ _ hveq _ => absurd hveq hv⟩
    · have hres : update_setting_payload c caller spk input now st =
          (.error "no permission", st) := by
        simp [update_setting_payload, hns, hperm]
      rw [hres]
      refine ⟨rfl, rfl, fun ns2 hns2 hp _ _ => ?_⟩
      injection hns2 with hns2
      rw [← hns2] at hp
      exact absurd hp hperm

theorem wsm_readonly (caller : Principal) (spk : SettingPathKey)
    (f : Setting → Setting) (st : StoreState) (s : Setting)
    (hs : alookup st.settings spk.v0 = some s) (h1 : (1 : Int) ≤ s.status) :
    (with_setting_mut caller spk f st).2 = st ∧
    isErr (with_setting_mut caller spk f st).1 = true ∧
    (∀ ns, alookup st.namespaces spk.ns = some ns →
      ns.can_write_setting caller spk = true → s.version = spk.version →
      (with_setting_mut caller spk f st).1 =
        .error "readonly setting can not be updated") := by
  rcases hns : alookup st.namespaces spk.ns with _ | ns
  · have hres : with_setting_mut caller spk f st =
        (.error ("namespace " ++ spk.ns ++ " not found"), st) := by
      simp [with_setting_mut, hns]
    rw [hres]
    exact ⟨rfl, rfl, fun ns2 hns2 => by cases hns2⟩
  · by_cases hperm : ns.can_write_setting caller spk = true
    · by_cases hv : s.version = spk.version
      · have hres : with_setting_mut caller spk f st =
            (.error "readonly setting can not be updated", st) := by
          simp [with_setting_mut, hns, hperm, hs, hv, h1]
        rw [hres]
        exact ⟨rfl, rfl, fun _ _ _ _ => rfl⟩
      · have hres : with_setting_mut caller spk f st =
            (.error "version mismatch", st) := by
          simp [with_setting_mut, hns, hperm, hs, hv]
        rw [hres]
        exact ⟨rfl, rfl, fun _ _ _ hveq => absurd hveq hv⟩
    · have hres : with_setting_mut caller spk f st =
          (.error "no permission", st) := by
        simp [with_setting_mut, hns, hperm]
      rw [hres]
      refine ⟨rfl, rfl, fun ns2 hns2 hp _ => ?_⟩
      injection hns2 with hns2
      rw [← hns2] at hp
      exact absurd hp hperm

theorem update_setting_info_isErr (caller : Principal) (spk : SettingPathKey)
    (input : UpdateSettingInfoInput) (now : Nat) (st : StoreState) :
    isErr (update_setting_info caller spk input now st).1 =
      isErr (with_setting_mut caller spk (infoMut input now) st).1 := by
  unfold update_setting_info
  rcases hw : with_setting_mut caller spk (infoMut input now) st with ⟨r, st1⟩
  cases r <;> simp [isErr]

theorem update_setting_info_err (caller : Principal) (spk : SettingPathKey)
    (input : UpdateSettingInfoInput) (now : Nat) (st : StoreState) (e : String)
    (h : (with_setting_mut caller spk (infoMut input now) st).1 = .error e) :
    (update_setting_info caller spk input now st).1 = .error e := by
  unfold update_setting_info
  rcases hw : with_setting_mut caller spk (infoMut input now) st with ⟨r, st1⟩
  rw [hw] at h
  simp only [Prod.fst] at h
  cases r with
  | ok v => exact absurd h (by simp)
  | error a =>
    injection h with ha
    simp [ha]

theorem applyOp_readonly_step (c : Codec) (st : StoreState) (op : Op)
    (k : SettingPathKey) (s : Setting)
    (h : alookup st.settings k = some s) (h1 : s.status = 1) :
    alookup (applyOp c st op).settings k = some s := by
  have hkne : ∀ (s2 : Setting) (spk : SettingPathKey),
      alookup st.settings spk.v0 = some s2 → s2.status < 1 → k ≠ spk.v0 := by
    intro s2 spk hs2 hlt he
    rw [he] at h
    rw [h] at hs2
    injection hs2 with hh
    rw [← hh] at hlt
    omega
  cases op with
  | createSetting caller spk input now =>
    rcases create_state c caller spk input now st with ⟨_, he | ⟨ns2, size2, _, hnone, hset, _⟩⟩
    · simp only [applyOp]; rw [he]; exact h
    · simp only [applyOp]
      rw [hset]
      have hk : k ≠ spk := fun he2 => by
        rw [he2] at h; rw [h] at hnone; cases hnone
      rw [alookup_ainsert_ne _ _ _ _ hk]
      exact h
  | updatePayload caller spk input now =>
    rcases update_payload_state c caller spk input now st with
      he | ⟨ns2, s2, _, hs2, _, hst2, hset, _, _⟩
    · simp only [applyOp]; rw [he]; exact h
    · simp only [applyOp]
      rw [hset, alookup_ainsert_ne _ _ _ _ (hkne s2 spk hs2 hst2)]
      exact h
  | updateInfo caller spk input now =>
    simp only [applyOp]
    rw [update_setting_info_snd]
    rcases (wsm_state caller spk (infoMut input now) st).2.2 with
      he | ⟨s2, hs2, _, hst2, hset⟩
    · rw [he]; exact h
    · rw [hset, alookup_ainsert_ne _ _ _ _ (hkne s2 spk hs2 hst2)]
      exact h
  | addReaders caller spk input now =>
    simp only [applyOp]
    rw [setting_add_readers_snd]
    rcases (wsm_state caller spk (addReadersMut input now) st).2.2 with
      he | ⟨s2, hs2, _, hst2, hset⟩
    · rw [he]; exact h
    · rw [hset, alookup_ainsert_ne _ _ _ _ (hkne s2 spk hs2 hst2)]
      exact h
  | removeReaders caller spk input now =>
    simp only [applyOp]
    rw [setting_remove_readers_snd]
    rcases (wsm_state caller spk (removeReadersMut input now) st).2.2 with
      he | ⟨s2, hs2, _, hst2, hset⟩
    · rw [he]; exact h
    · rw [hset, alookup_ainsert_ne _ _ _ _ (hkne s2 spk hs2 hst2)]
      exact h
  | deleteSetting caller spk =>
    rcases delete_setting_state caller spk st with
      ⟨_, he | ⟨s2, hs2, _, hst2, hset⟩⟩
    · simp only [applyOp]; rw [he]; exact h
    · simp only [applyOp]
      rw [hset, alookup_aremove_ne _ _ _ (hkne s2 spk hs2 hst2)]
      exact h
  | deleteNamespace caller name =>
    rcases delete_namespace_state caller name st with ⟨hset, _, _⟩
    simp only [applyOp]; rw [hset]; exact h
  | updateNamespaceInfo caller input now =>
    rcases update_namespace_info_state caller input now st with ⟨hset, _, _⟩
    simp only [applyOp]; rw [hset]; exact h

theorem applyOps_readonly (c : Codec) (st : StoreState) (ops : List Op)
    (k : SettingPathKey) (s : Setting)
    (h : alookup st.settings k = some s) (h1 : s.status = 1) :
    alookup (applyOps c st ops).settings k = some s := by
  induction ops generalizing st with
  | nil => simpa [applyOps] using h
  | cons op rest ih =>
    simp only [applyOps, List.foldl_cons]
    exact ih (applyOp c st op) (applyOp_readonly_step c st op k s h h1)

theorem applyOp_version_step (c : Codec) (st : StoreState) (op : Op)
    (k : SettingPathKey) (s s' : Setting)
    (h : alookup st.settings k = some s)
    (h' : alookup (applyOp c st op).settings k = some s')
    (hb : s.version ≤ u32Max) :
    s.version ≤ s'.version := by
  have hsame : alookup (applyOp c st op).settings k = some s → s.version ≤ s'.version := by
    intro he
    rw [he] at h'
    injection h' with hh
    rw [hh]
  cases op with
  | createSetting caller spk input now =>
    rcases create_state c caller spk input now st with
      ⟨_, he | ⟨ns2, size2, _, hnone, hset, _⟩⟩
    · apply hsame; simp only [applyOp]; rw [he]; exact h
    · have hk : k ≠ spk := fun he2 => by
        rw [he2] at h; rw [h] at hnone; cases hnone
      apply hsame
      simp only [applyOp] at h' ⊢
      rw [hset, alookup_ainsert_ne _ _ _ _ hk]
      exact h
  | updatePayload caller spk input now =>
    rcases update_payload_state c caller spk input now st with
      he | ⟨ns2, s2, _, hs2, _, hst2, hset, _, _⟩
    · apply hsame; simp only [applyOp]; rw [he]; exact h
    · by_cases hk : k = spk.v0
      · simp only [applyOp] at h'
        rw [hset, hk, alookup_ainsert_self] at h'
        injection h' with hh
        rw [hk] at h
        rw [h] at hs2
        injection hs2 with hh2
        rw [← hh, ← hh2]
        simp only [updatedSetting, satAdd32]
        omega
      · apply hsame
        simp only [applyOp]
        rw [hset, alookup_ainsert_ne _ _ _ _ hk]
        exact h
  | updateInfo caller spk input now =>
    rcases (wsm_state caller spk (infoMut input now) st).2.2 with
      he | ⟨s2, hs2, _, _, hset⟩
    · apply hsame; simp only [applyOp]; rw [update_setting_info_snd, he]; exact h
    · by_cases hk : k = spk.v0
      · simp only [applyOp] at h'
        rw [update_setting_info_snd, hset, hk, alookup_ainsert_self] at h'
        injection h' with hh
        rw [hk] at h
        rw [h] at hs2
        injection hs2 with hh2
        rw [← hh, ← hh2]
        simp [infoMut]
      · apply hsame
        simp only [applyOp]
        rw [update_setting_info_snd, hset, alookup_ainsert_ne _ _ _ _ hk]
        exact h
  | addReaders caller spk input now =>
    rcases (wsm_state caller spk (addReadersMut input now) st).2.2 with
      he | ⟨s2, hs2, _, _, hset⟩
    · apply hsame; simp only [applyOp]; rw [setting_add_readers_snd, he]; exact h
    · by_cases hk : k = spk.v0
      · simp only [applyOp] at h'
        rw [setting_add_readers_snd, hset, hk, alookup_ainsert_self] at h'
        injection h' with hh
        rw [hk] at h
        rw [h] at hs2
        injection hs2 with hh2
        rw [← hh, ← hh2]
        simp [addReadersMut]
      · apply hsame
        simp only [applyOp]
        rw [setting_add_readers_snd, hset, alookup_ainsert_ne _ _ _ _ hk]
        exact h
  | removeReaders caller spk input now =>
    rcases (wsm_state caller spk (removeReadersMut input now) st).2.2 with
      he | ⟨s2, hs2, _, _, hset⟩
    · apply hsame; simp only [applyOp]; rw [setting_remove_readers_snd, he]; exact h
    · by_cases hk : k = spk.v0
      · simp only [applyOp] at h'
        rw [setting_remove_readers_snd, hset, hk, alookup_ainsert_self] at h'
        injection h' with hh
        rw [hk] at h
        rw [h] at hs2
        injection hs2 with hh2
        rw [← hh, ← hh2]
        simp [removeReadersMut]
      · apply hsame
        simp only [applyOp]
        rw [setting_remove_readers_snd, hset, alookup_ainsert_ne _ _ _ _ hk]
        exact h
  | deleteSetting caller spk =>
    rcases delete_setting_state caller spk st with
      ⟨_, he | ⟨s2, hs2, _, hst2, hset⟩⟩
    · apply hsame; simp only [applyOp]; rw [he]; exact h
    · by_cases hk : k = spk.v0
      · simp only [applyOp] at h'
        rw [hset, hk, alookup_aremove_self] at h'
        cases h'
      · apply hsame
        simp only [applyOp]
        rw [hset, alookup_aremove_ne _ _ _ hk]
        exact h
  | deleteNamespace caller name =>
    rcases delete_namespace_state caller name st with ⟨hset, _, _⟩
    apply hsame; simp only [applyOp]; rw [hset]; exact h
  | updateNamespaceInfo caller input now =>
    rcases update_namespace_info_state caller input now st with ⟨hset, _, _⟩
    apply hsame; simp only [applyOp]; rw [hset]; exact h

/-!
## Claim C3: `get_setting_archived_payload`
-/

/-- C3 (corrected): for a caller with read permission, the call fails for a
requested version of 0 or at/above the current version; for
`0 < v < current` it succeeds IF an archived record exists at `v` — but that
record exists only when the live payload at version `v` was non-`None`
(`update_setting_payload` archives nothing otherwise), so success is not
guaranteed for every such `v`.  What `update_setting_payload` archives under
the pre-update version key is exactly the payload and dek that were live at
that version. -/
theorem C3_archived_payload (caller : Principal) (spk : SettingPathKey)
    (st : StoreState) :
    (∀ s, try_get_setting caller spk st = some s →
      ((spk.version = 0 ∨ s.version ≤ spk.version) →
        get_setting_archived_payload caller spk st =
          .error "version mismatch") ∧
      (0 < spk.version → spk.version < s.version →
        (∀ p, alookup st.payloads spk = some p →
          get_setting_archived_payload caller spk st =
            .ok { version := spk.version, archived_at := p.archived_at,
                  deprecated := p.deprecated, payload := p.payload,
                  dek := p.dek }) ∧
        (alookup st.payloads spk = none →
          get_setting_archived_payload caller spk st =
            .error "setting payload not found"))) ∧
    (∀ c caller2 spk2 input now st2 ns s out st3 pl,
      alookup st2.namespaces spk2.ns = some ns →
      alookup st2.settings spk2.v0 = some s →
      s.payload = some pl →
      update_setting_payload c caller2 spk2 input now st2 = (.ok out, st3) →
      alookup st3.payloads spk2 = some (archivedOf s input now pl)) := by
  constructor
  · intro s h
    constructor
    · intro hv
      have hcond : spk.version = 0 ∨ spk.version ≥ s.version := by
        rcases hv with h0 | hge
        · exact Or.inl h0
        · exact Or.inr hge
      simp [get_setting_archived_payload, h, hcond]
    · intro h0 hlt
      have hcond : ¬ (spk.version = 0 ∨ spk.version ≥ s.version) := by
        rintro (he | hge)
        · omega
        · omega
      constructor
      · intro p hp
        simp [get_setting_archived_payload, h, hcond, hp]
      · intro hp
        simp [get_setting_archived_payload, h, hcond, hp]
  · intro c caller2 spk2 input now st2 ns s out st3 pl hns hs hpl h
    exact (update_ok c caller2 spk2 input now st2 ns s out st3 hns hs
      h).2.2.2.2.2 pl hpl

/-- C3 counterexample: a setting created without a payload at version 1 and
then updated to version 2 leaves no archived record at version 1, so
`get_setting_archived_payload` FAILS at version 1 even though the caller has
read permission and `0 < 1 < 2` — refuting the claim's "if and only if". -/
theorem C3_counterexample :
    step3b.1 = .ok { created_at := 10, updated_at := 10, version := 1 } ∧
    step3c.1 = .ok { created_at := 10, updated_at := 20, version := 2 } ∧
    (alookup step3c.2.settings spkFix).map Setting.version = some 2 ∧
    (try_get_setting [1] { spkFix with version := 1 } step3c.2).isSome = true ∧
    get_setting_archived_payload [1] { spkFix with version := 1 } step3c.2 =
      .error "setting payload not found" := by
  decide

/-- C3 witness: the success branch at the concrete store `st1c`, returning
exactly the archived version-1 payload. -/
theorem C3_archived_payload_witness :
    get_setting_archived_payload [9] { spkFix with version := 1 } st1c =
      .ok { version := 1, archived_at := 5, deprecated := false,
            payload := some [8], dek := none } :=
  (((C3_archived_payload [9] { spkFix with version := 1 } st1c).1 s1c
    (by decide)).2 (by decide) (by decide)).1
    { archived_at := 5, deprecated := false, payload := some [8], dek := none }
    (by decide)

/-!
## Claim C4: version lifecycle
-/

/-- C4 (corrected): a successful `create_setting` stores version 1; a
successful `update_setting_payload` sets the stored version to
`saturating_add(version, 1)`, which is strictly greater whenever the old
version is below `u32::MAX` but stays equal at the saturation point; and no
operation of the alphabet ever decreases the version of a setting that
exists before and after it (`u32`-range versions). -/
theorem C4_version_lifecycle :
    (∀ c caller spk input now st out st2,
      create_setting c caller spk input now st = (.ok out, st2) →
      out.version = 1 ∧
      alookup st2.settings spk = some (createdSetting input now) ∧
      (createdSetting input now).version = 1) ∧
    (∀ c caller spk input now st ns s out st2,
      alookup st.namespaces spk.ns = some ns →
      alookup st.settings spk.v0 = some s →
      update_setting_payload c caller spk input now st = (.ok out, st2) →
      out.version = satAdd32 s.version 1 ∧
      alookup st2.settings spk.v0 = some (updatedSetting s input now) ∧
      (s.version ≤ u32Max → s.version ≤ (updatedSetting s input now).version) ∧
      (s.version < u32Max → s.version < (updatedSetting s input now).version)) ∧
    (∀ c st op k s s', alookup st.settings k = some s →
      alookup (applyOp c st op).settings k = some s' →
      s.version ≤ u32Max → s.version ≤ s'.version) := by
  refine ⟨?_, ?_, ?_⟩
  · intro c caller spk input now st out st2 h
    obtain ⟨h1, h2, _⟩ := create_ok c caller spk input now st out st2 h
    exact ⟨by rw [h1], h2, by simp [createdSetting]⟩
  · intro c caller spk input now st ns s out st2 hns hs h
    obtain ⟨_, _, h3, h4, _, _⟩ :=
      update_ok c caller spk input now st ns s out st2 hns hs h
    refine ⟨by rw [h3], h4, ?_, ?_⟩
    · intro hb
      simp only [updatedSetting, satAdd32]
      omega
    · intro hb
      simp only [updatedSetting, satAdd32]
      omega
  · intro c st op k s s' h h' hb
    exact applyOp_version_step c st op k s s' h h' hb

/-- C4 counterexample: at the saturation point `u32::MAX` a payload update
SUCCEEDS yet leaves the stored version exactly where it was — the "strictly
greater after every successful update" clause fails. -/
theorem C4_counterexample :
    s4Fix.version = u32Max ∧
    upd4.1 = .ok { created_at := 0, updated_at := 20, version := 4294967295 } ∧
    alookup upd4.2.settings spkFix = some { s4Fix with updated_at := 20 } ∧
    ({ s4Fix with updated_at := 20 } : Setting).version = s4Fix.version := by
  decide

/-- C4 witness: the update clause at the concrete store `st2Fix`
(version 1 → 2). -/
theorem C4_version_lifecycle_witness :
    ({ created_at := 0, updated_at := 20, version := 2 } :
        UpdateSettingOutput).version = satAdd32 s2Fix.version 1 ∧
    alookup updC4.2.settings
        ({ spkFix with version := 1 } : SettingPathKey).v0 =
      some (updatedSetting s2Fix updNone 20) ∧
    (s2Fix.version ≤ u32Max →
      s2Fix.version ≤ (updatedSetting s2Fix updNone 20).version) ∧
    (s2Fix.version < u32Max →
      s2Fix.version < (updatedSetting s2Fix updNone 20).version) :=
  C4_version_lifecycle.2.1 codecT [1] { spkFix with version := 1 } updNone 20
    st2Fix nsFix s2Fix { created_at := 0, updated_at := 20, version := 2 }
    updC4.2 (by decide) (by decide) (by decide)

/-!
## Claim C5: read-only settings are terminal for updates
-/

/-- C5 (confirmed): once a setting's status is 1, after ANY sequence of the
modelled operations the record is still stored unchanged, and both
`update_setting_payload` and `update_setting_info` on it fail while
returning the store untouched; whenever such a call passes the permission
and version (and, for payload updates, size) checks, its error is exactly
the read-only one. -/
theorem C5_readonly_terminal (c : Codec) (caller : Principal)
    (spk : SettingPathKey) (pin : UpdateSettingPayloadInput)
    (iin : UpdateSettingInfoInput) (now : Nat) (st : StoreState) (s : Setting)
    (ops : List Op)
    (hs : alookup st.settings spk.v0 = some s) (h1 : s.status = 1) :
    alookup (applyOps c st ops).settings spk.v0 = some s ∧
    isErr (update_setting_payload c caller spk pin now
      (applyOps c st ops)).1 = true ∧
    (update_setting_payload c caller spk pin now (applyOps c st ops)).2 =
      applyOps c st ops ∧
    isErr (update_setting_info caller spk iin now (applyOps c st ops)).1
      = true ∧
    (update_setting_info caller spk iin now (applyOps c st ops)).2 =
      applyOps c st ops ∧
    (∀ ns, alookup (applyOps c st ops).namespaces spk.ns = some ns →
      ns.can_write_setting caller spk = true → s.version = spk.version →
      optLen pin.payload ≤ ns.max_payload_size →
      (update_setting_payload c caller spk pin now (applyOps c st ops)).1 =
        .error "readonly setting can not be updated") ∧
    (∀ ns, alookup (applyOps c st ops).namespaces spk.ns = some ns →
      ns.can_write_setting caller spk = true → s.version = spk.version →
      (update_setting_info caller spk iin now (applyOps c st ops)).1 =
        .error "readonly setting can not be updated") := by
  have hpres : alookup (applyOps c st ops).settings spk.v0 = some s :=
    applyOps_readonly c st ops spk.v0 s hs h1
  have h1' : (1 : Int) ≤ s.status := by omega
  obtain ⟨hu2, hu1, hu3⟩ :=
    update_payload_readonly c caller spk pin now (applyOps c st ops) s hpres h1'
  obtain ⟨hw2, hw1, hw3⟩ :=
    wsm_readonly caller spk (infoMut iin now) (applyOps c st ops) s hpres h1'
  refine ⟨hpres, hu1, hu2, ?_, ?_, hu3, ?_⟩
  · rw [update_setting_info_isErr]
    exact hw1
  · rw [update_setting_info_snd]
    exact hw2
  · intro ns hns hp hv
    exact update_setting_info_err caller spk iin now (applyOps c st ops) _
      (hw3 ns hns hp hv)

/-- C5 witness: the read-only store `stRO`, after the empty operation
sequence, rejects a well-formed payload update and info update with the
read-only error. -/
theorem C5_readonly_terminal_witness :
    alookup (applyOps codecT stRO []).settings
      ({ spkFix with version := 1 } : SettingPathKey).v0 = some sRO ∧
    isErr (update_setting_payload codecT [1] { spkFix with version := 1 }
      updNone 30 (applyOps codecT stRO [])).1 = true ∧
    (update_setting_payload codecT [1] { spkFix with version := 1 } updNone 30
      (applyOps codecT stRO [])).2 = applyOps codecT stRO [] ∧
    isErr (update_setting_info [1] { spkFix with version := 1 } infoNone 30
      (applyOps codecT stRO [])).1 = true ∧
    (update_setting_info [1] { spkFix with version := 1 } infoNone 30
      (applyOps codecT stRO [])).2 = applyOps codecT stRO [] ∧
    (∀ ns, alookup (applyOps codecT stRO []).namespaces
        ({ spkFix with version := 1 } : SettingPathKey).ns = some ns →
      ns.can_write_setting [1] { spkFix with version := 1 } = true →
      sRO.version = ({ spkFix with version := 1 } : SettingPathKey).version →
      optLen updNone.payload ≤ ns.max_payload_size →
      (update_setting_payload codecT [1] { spkFix with version := 1 } updNone
        30 (applyOps codecT stRO [])).1 =
        .error "readonly setting can not be updated") ∧
    (∀ ns, alookup (applyOps codecT stRO []).namespaces
        ({ spkFix with version := 1 } : SettingPathKey).ns = some ns →
      ns.can_write_setting [1] { spkFix with version := 1 } = true →
      sRO.version = ({ spkFix with version := 1 } : SettingPathKey).version →
      (update_setting_info [1] { spkFix with version := 1 } infoNone 30
        (applyOps codecT stRO [])).1 =
        .error "readonly setting can not be updated") :=
  C5_readonly_terminal codecT [1] { spkFix with version := 1 } updNone
    infoNone 30 stRO sRO [] (by decide) (by decide)

/-!
## Claim C10: `payload_bytes_total` is a cumulative counter
-/

/-- C10 (confirmed): across every operation of the alphabet a surviving
namespace's `payload_bytes_total` never decreases; a successful
`create_setting` saturating-adds the sizes of the new payload and dek (dek
counted only when present), a successful `update_setting_payload`
saturating-adds payload-plus-dek sizes, and `delete_setting` returns the
namespace table bit-for-bit unchanged — the field is a cumulative total of
bytes ever stored, not the current usage. -/
theorem C10_payload_bytes_cumulative :
    (∀ c st op nm ns ns', alookup st.namespaces nm = some ns →
      ns.payload_bytes_total ≤ u64Max →
      alookup (applyOp c st op).namespaces nm = some ns' →
      ns.payload_bytes_total ≤ ns'.payload_bytes_total) ∧
    (∀ c caller spk input now st out st2,
      create_setting c caller spk input now st = (.ok out, st2) →
      ∃ ns, alookup st.namespaces spk.ns = some ns ∧
        alookup st2.namespaces spk.ns =
          some (nsAddBytes ns (createSize input))) ∧
    (∀ c caller spk input now st ns s out st2,
      alookup st.namespaces spk.ns = some ns →
      alookup st.settings spk.v0 = some s →
      update_setting_payload c caller spk input now st = (.ok out, st2) →
      alookup st2.namespaces spk.ns =
        some (nsAddBytes ns (optLen input.payload + optLen input.dek))) ∧
    (∀ caller spk st,
      (delete_setting caller spk st).2.namespaces = st.namespaces) := by
  refine ⟨?_, ?_, ?_, ?_⟩
  · intro c st op nm ns ns' h hb h'
    have hsame : alookup (applyOp c st op).namespaces nm = some ns →
        ns.payload_bytes_total ≤ ns'.payload_bytes_total := by
      intro he
      rw [he] at h'
      injection h' with hh
      rw [hh]
    cases op with
    | createSetting caller spk input now =>
      rcases create_state c caller spk input now st with
        ⟨_, he | ⟨ns2, size2, hns2, _, _, hnsp⟩⟩
      · apply hsame; simp only [applyOp]; rw [he]; exact h
      · by_cases hk : nm = spk.ns
        · simp only [applyOp] at h'
          rw [hnsp, hk, alookup_ainsert_self] at h'
          injection h' with hh
          rw [hk] at h
          rw [h] at hns2
          injection hns2 with hh2
          rw [hh2] at hb
          rw [← hh, hh2]
          simp only [nsAddBytes, satAdd64]
          omega
        · apply hsame
          simp only [applyOp]
          rw [hnsp, alookup_ainsert_ne _ _ _ _ hk]
          exact h
    | updatePayload caller spk input now =>
      rcases update_payload_state c caller spk input now st with
        he | ⟨ns2, s2, hns2, _, _, _, _, hnsp, _⟩
      · apply hsame; simp only [applyOp]; rw [he]; exact h
      · by_cases hk : nm = spk.ns
        · simp only [applyOp] at h'
          rw [hnsp, hk, alookup_ainsert_self] at h'
          injection h' with hh
          rw [hk] at h
          rw [h] at hns2
          injection hns2 with hh2
          rw [hh2] at hb
          rw [← hh, hh2]
          simp only [nsAddBytes, satAdd64]
          omega
        · apply hsame
          simp only [applyOp]
          rw [hnsp, alookup_ainsert_ne _ _ _ _ hk]
          exact h
    | updateInfo caller spk input now =>
      apply hsame
      simp only [applyOp]
      rw [update_setting_info_snd,
        (wsm_state caller spk (infoMut input now) st).1]
      exact h
    | addReaders caller spk input now =>
      apply hsame
      simp only [applyOp]
      rw [setting_add_readers_snd,
        (wsm_state caller spk (addReadersMut input now) st).1]
      exact h
    | removeReaders caller spk input now =>
      apply hsame
      simp only [applyOp]
      rw [setting_remove_readers_snd,
        (wsm_state caller spk (removeReadersMut input now) st).1]
      exact h
    | deleteSetting caller spk =>
      apply hsame
      simp only [applyOp]
      rw [(delete_setting_state caller spk st).1]
      exact h
    | deleteNamespace caller name =>
      rcases delete_namespace_state caller name st with ⟨_, _, hu | hr⟩
      · apply hsame; simp only [applyOp]; rw [hu]; exact h
      · by_cases hk : nm = name
        · simp only [applyOp] at h'
          rw [hr, hk, alookup_aremove_self] at h'
          cases h'
        · apply hsame
          simp only [applyOp]
          rw [hr, alookup_aremove_ne _ _ _ hk]
          exact h
    | updateNamespaceInfo caller input now =>
      rcases update_namespace_info_state caller input now st with
        ⟨_, _, he | ⟨ns0, ns1, hns0, htot, hnsp⟩⟩
      · apply hsame; simp only [applyOp]; rw [he]; exact h
      · by_cases hk : nm = input.name
        · simp only [applyOp] at h'
          rw [hnsp, hk, alookup_ainsert_self] at h'
          injection h' with hh
          rw [hk] at h
          rw [h] at hns0
          injection hns0 with hh2
          rw [← hh, htot, hh2]
        · apply hsame
          simp only [applyOp]
          rw [hnsp, alookup_ainsert_ne _ _ _ _ hk]
          exact h
  · intro c caller spk input now st out st2 h
    exact (create_ok c caller spk input now st out st2 h).2.2
  · intro c caller spk input now st ns s out st2 hns hs h
    exact (update_ok c caller spk input now st ns s out st2 hns hs h).2.2.2.2.1
  · intro caller spk st
    exact (delete_setting_state caller spk st).1

/-- C10 witness: the monotonicity clause across a concrete successful
payload update on `st2Fix`. -/
theorem C10_payload_bytes_witness :
    nsFix.payload_bytes_total ≤ (nsAddBytes nsFix 0).payload_bytes_total :=
  C10_payload_bytes_cumulative.1 codecT st2Fix
    (Op.updatePayload [1] { spkFix with version := 1 } updNone 20) "a" nsFix
    (nsAddBytes nsFix 0) (by decide) (by decide) (by decide)

end ICCose
